import Mathlib

set_option maxHeartbeats 1000000
set_option maxRecDepth 100000

/-! Verification of the tywrap Python bridge.

This development is a shallow embedding of the JSONL RPC bridge implemented in
`src/runtime/python_bridge.py` and `src/runtime/safe_codec.py`. Python values
that can appear on the wire (JSON values plus byte strings) are modelled by the
inductive `PyVal`; Python exceptions that the bridge raises or catches are
modelled by `PyErr`; the standard library pieces the bridge calls
(`json.loads`, user module code reached via `importlib`) are oracles carried in
an `Env` record, while everything the bridge itself computes is translated
function by function, keeping the source names. -/

/-- Model of a CPython float as it matters to the bridge: the codec only ever
distinguishes finite floats from NaN and the two infinities
(`safe_codec._is_nan_or_inf`, `json.dumps(..., allow_nan=...)`). A finite
float is carried as the rational it denotes. -/
inductive PyFloat where
  | finite (q : ℚ)
  | nan
  | inf
  | negInf
deriving DecidableEq, Repr

/-- Model of the Python values that can cross the bridge boundary: the JSON
values (`None`, `bool`, `int`, `float`, `str`, `list`, `dict` with string
keys — every dict the bridge reads comes from `json.loads`) plus `bytes`
(produced by `deserialize` from base64 envelopes and consumed by
`SafeCodec._default_encoder`). A byte string is a list of byte values. -/
inductive PyVal where
  | none
  | bool (b : Bool)
  | int (n : Int)
  | float (f : PyFloat)
  | str (s : String)
  | bytes (bs : List Nat)
  | list (xs : List PyVal)
  | dict (kvs : List (String × PyVal))
deriving Repr

/-- Model of the exceptions raised and caught in `python_bridge.py`.
`userError t m tb` stands for an arbitrary exception escaping user handler
code (or `importlib`/`getattr` during resolution): `t` is
`type(exc).__name__`, `m` is `str(exc)`, `tb` is `traceback.format_exc()` at
the catch site. The remaining constructors are the bridge's own exception
classes, carrying the data their constructors take in the source. -/
inductive PyErr where
  | protocolError (msg : String)
  | codecError (msg : String)
  | valueError (msg : String)
  | typeError (msg : String)
  | requestTooLargeError (payloadBytes maxBytes : Nat)
  | payloadTooLargeError (payloadBytes maxBytes : Nat)
  | instanceHandleError (msg : String)
  | jsonDecodeError (msg : String)
  | codecMaxBytesParseError
  | requestMaxBytesParseError
  | userError (typeName : String) (msg : String) (tb : String)
deriving DecidableEq, Repr

/-- Python `type(exc).__name__` for each modelled exception. -/
def PyErr.typeName : PyErr → String
  | .protocolError _ => "ProtocolError"
  | .codecError _ => "CodecError"
  | .valueError _ => "ValueError"
  | .typeError _ => "TypeError"
  | .requestTooLargeError _ _ => "RequestTooLargeError"
  | .payloadTooLargeError _ _ => "PayloadTooLargeError"
  | .instanceHandleError _ => "InstanceHandleError"
  | .jsonDecodeError _ => "JSONDecodeError"
  | .codecMaxBytesParseError => "CodecMaxBytesParseError"
  | .requestMaxBytesParseError => "RequestMaxBytesParseError"
  | .userError t _ _ => t

/-- Python `str(exc)` for each modelled exception. The size-limit classes
format their message in `__init__` (python_bridge.py lines 53-56 and 69-72);
the two parse-error classes pass a fixed message to `super().__init__`. -/
def PyErr.message : PyErr → String
  | .protocolError m => m
  | .codecError m => m
  | .valueError m => m
  | .typeError m => m
  | .requestTooLargeError p m =>
      "Request payload is " ++ toString p ++
        " bytes which exceeds TYWRAP_REQUEST_MAX_BYTES=" ++ toString m
  | .payloadTooLargeError p m =>
      "Response payload is " ++ toString p ++
        " bytes which exceeds TYWRAP_CODEC_MAX_BYTES=" ++ toString m
  | .instanceHandleError m => m
  | .jsonDecodeError m => m
  | .codecMaxBytesParseError => "TYWRAP_CODEC_MAX_BYTES must be an integer byte count"
  | .requestMaxBytesParseError => "TYWRAP_REQUEST_MAX_BYTES must be an integer byte count"
  | .userError _ m _ => m

/-- Model of `traceback.format_exc()` at an `except` site. For an exception
from user handler code the traceback text is the one the oracle supplied; for
a bridge-internal exception the text is synthesised (its exact content is
irrelevant to every claim, only its presence or absence in a response is). -/
def formatExc : PyErr → String
  | .userError _ _ tb => tb
  | e => "Traceback (most recent call last): " ++ e.message

/-- Python whitespace characters removed by `str.strip()` (ASCII subset;
the unicode whitespace Python also strips does not occur in any input
considered here). -/
def isPySpace (c : Char) : Bool :=
  c == ' ' || c == '\t' || c == '\n' || c == '\r' || c == '\x0b' || c == '\x0c'

/-- Model of Python `str.strip()`. (Lean's `String.trim` is avoided because it
does not reduce in the kernel.) -/
def pyStrip (s : String) : String :=
  String.mk (((s.data.dropWhile isPySpace).reverse.dropWhile isPySpace).reverse)

/-- Model of Python `dict.get(k)` on a JSON-decoded dict: the value of the
first matching key, or `None` when the key is absent. -/
def dictGet (kvs : List (String × PyVal)) (k : String) : PyVal :=
  match kvs with
  | [] => .none
  | (k', v) :: t => if k' = k then v else dictGet t k

/-- Key presence in a JSON-decoded dict (Python `k in d`), returning the value. -/
def dictFind (kvs : List (String × PyVal)) (k : String) : Option PyVal :=
  match kvs with
  | [] => Option.none
  | (k', v) :: t => if k' = k then some v else dictFind t k

/-- Model of the CPython check `isinstance(x, int)` on a JSON-decoded value.
CPython's `bool` is a subclass of `int`, so `True` and `False` pass this
check; no other JSON-decoded value does. -/
def isinstance_int : PyVal → Bool
  | .int _ => true
  | .bool _ => true
  | _ => false

/-- Python `x == s` for a string literal `s` against a JSON-decoded value:
true exactly when `x` is the equal string. -/
def isStrEq (v : PyVal) (s : String) : Bool :=
  match v with
  | .str t => t == s
  | _ => false

/-- Python `x is True`: true exactly for the boolean `True`. -/
def isTrueLit : PyVal → Bool
  | .bool true => true
  | _ => false

/-- Model of Python `str(x)` as used in f-string diagnostics. Container and
float text is approximated; no claim depends on it (all claim-relevant
messages are literals or use `str` on strings and ints, which are exact). -/
def pyStr : PyVal → String
  | .none => "None"
  | .bool true => "True"
  | .bool false => "False"
  | .int n => toString n
  | .float _ => "<float>"
  | .str s => s
  | .bytes _ => "<bytes>"
  | .list _ => "<list>"
  | .dict _ => "<dict>"

/-- Value of a standard base64 alphabet character, `none` for any character
outside the alphabet (padding handled separately). -/
def b64CharVal (c : Char) : Option Nat :=
  if 65 ≤ c.toNat ∧ c.toNat ≤ 90 then some (c.toNat - 65)
  else if 97 ≤ c.toNat ∧ c.toNat ≤ 122 then some (c.toNat - 97 + 26)
  else if 48 ≤ c.toNat ∧ c.toNat ≤ 57 then some (c.toNat - 48 + 52)
  else if c = '+' then some 62
  else if c = '/' then some 63
  else Option.none

/-- Model of `base64.b64decode(s, validate=True)`: the input must be a
sequence of 4-character blocks over the base64 alphabet, with `=` padding
only at the very end (one or two characters); anything else fails. Returns
the decoded byte values. -/
def b64DecodeGroups : List Char → Option (List Nat)
  | [] => some []
  | a :: b :: c :: d :: rest =>
      match b64CharVal a, b64CharVal b with
      | some va, some vb =>
          if c = '=' then
            if d = '=' ∧ rest = [] then some [va * 4 + vb / 16]
            else Option.none
          else
            match b64CharVal c with
            | some vc =>
                if d = '=' then
                  if rest = [] then some [va * 4 + vb / 16, (vb % 16) * 16 + vc / 4]
                  else Option.none
                else
                  match b64CharVal d with
                  | some vd =>
                      match b64DecodeGroups rest with
                      | some tail =>
                          some ([va * 4 + vb / 16, (vb % 16) * 16 + vc / 4,
                                 (vc % 4) * 64 + vd] ++ tail)
                      | Option.none => Option.none
                  | Option.none => Option.none
            | Option.none => Option.none
      | _, _ => Option.none
  | _ => Option.none

/-- Strict base64 decoding of a string (`base64.b64decode(_, validate=True)`). -/
def b64decode (s : String) : Option (List Nat) :=
  b64DecodeGroups s.data

/-- Base64 alphabet character for a sextet value (used by the encoder model). -/
def b64EncChar (n : Nat) : Char :=
  if n < 26 then Char.ofNat (65 + n)
  else if n < 52 then Char.ofNat (97 + (n - 26))
  else if n < 62 then Char.ofNat (48 + (n - 52))
  else if n = 62 then '+'
  else '/'

/-- Model of `base64.b64encode` over byte values. -/
def b64encodeChars : List Nat → List Char
  | [] => []
  | [a] => [b64EncChar (a / 4), b64EncChar (a % 4 * 16), '=', '=']
  | [a, b] => [b64EncChar (a / 4), b64EncChar (a % 4 * 16 + b / 16),
               b64EncChar (b % 16 * 4), '=']
  | a :: b :: c :: rest =>
      b64EncChar (a / 4) :: b64EncChar (a % 4 * 16 + b / 16) ::
        b64EncChar (b % 16 * 4 + c / 64) :: b64EncChar (c % 64) ::
          b64encodeChars rest

/-- Error literals of `python_bridge.py` (lines 145-147). -/
def ERR_BYTES_MISSING_B64 : String := "Invalid bytes envelope: missing b64"

/-- Error literal for the legacy bytes-envelope shape missing its payload. -/
def ERR_BYTES_MISSING_DATA : String := "Invalid bytes envelope: missing data"

/-- Error literal for a bytes envelope whose payload is not valid base64. -/
def ERR_BYTES_INVALID_BASE64 : String := "Invalid bytes envelope: invalid base64"

/-- Translation of `_deserialize_bytes_envelope` (python_bridge.py lines
150-182). `ok none` models the `_NO_DESERIALIZE` sentinel; `ok (some v)` a
decoded byte string; `error` a raised `ProtocolError`. -/
def deserialize_bytes_envelope (v : PyVal) : Except PyErr (Option PyVal) :=
  match v with
  | .dict kvs =>
      if isTrueLit (dictGet kvs "__tywrap_bytes__") then
        match dictGet kvs "b64" with
        | .str s =>
            match b64decode s with
            | some bs => .ok (some (.bytes bs))
            | Option.none => .error (.protocolError ERR_BYTES_INVALID_BASE64)
        | _ => .error (.protocolError ERR_BYTES_MISSING_B64)
      else if isStrEq (dictGet kvs "__type__") "bytes"
          && isStrEq (dictGet kvs "encoding") "base64" then
        match dictGet kvs "data" with
        | .str s =>
            match b64decode s with
            | some bs => .ok (some (.bytes bs))
            | Option.none => .error (.protocolError ERR_BYTES_INVALID_BASE64)
        | _ => .error (.protocolError ERR_BYTES_MISSING_DATA)
      else .ok Option.none
  | _ => .ok Option.none

mutual

/-- Translation of `deserialize` (python_bridge.py lines 185-201): decode a
bytes envelope if the value is one, otherwise recurse structurally into lists
and dict values, leaving every other value unchanged. -/
def deserialize (v : PyVal) : Except PyErr PyVal :=
  match deserialize_bytes_envelope v with
  | .error e => .error e
  | .ok (some decoded) => .ok decoded
  | .ok Option.none =>
      match v with
      | .list xs => do return .list (← deserializeList xs)
      | .dict kvs => do return .dict (← deserializeItems kvs)
      | w => .ok w

/-- Elementwise `deserialize` over a list (the comprehension on line 197). -/
def deserializeList (xs : List PyVal) : Except PyErr (List PyVal) :=
  match xs with
  | [] => .ok []
  | x :: t => do return (← deserialize x) :: (← deserializeList t)

/-- Valuewise `deserialize` over dict items, keys preserved (line 200). -/
def deserializeItems (kvs : List (String × PyVal)) :
    Except PyErr (List (String × PyVal)) :=
  match kvs with
  | [] => .ok []
  | (k, v) :: t => do return (k, ← deserialize v) :: (← deserializeItems t)

end

/-- ASCII lowercasing of one character (model of `str.lower()` on the ASCII
error messages it is applied to). -/
def lowerChar (c : Char) : Char :=
  if 65 ≤ c.toNat ∧ c.toNat ≤ 90 then Char.ofNat (c.toNat + 32) else c

/-- ASCII lowercasing of a string. -/
def lowerStr (s : String) : String :=
  String.mk (s.data.map lowerChar)

/-- Whether `hay` starts with `needle`. -/
def listStartsWith : List Char → List Char → Bool
  | _, [] => true
  | [], _ :: _ => false
  | c :: cs, d :: ds => c == d && listStartsWith cs ds

/-- Whether `needle` occurs as a contiguous run inside `hay`. -/
def listContainsSub : List Char → List Char → Bool
  | [], needle => listStartsWith [] needle
  | c :: cs, needle => listStartsWith (c :: cs) needle || listContainsSub cs needle

/-- Model of Python `needle in hay` on strings. -/
def strContains (hay needle : String) : Bool :=
  listContainsSub hay.data needle.data

/-- Opening brace character (written via its code point). -/
def lbrace : Char := Char.ofNat 123

/-- Closing brace character (written via its code point). -/
def rbrace : Char := Char.ofNat 125

/-- Lowercase hexadecimal digit. -/
def hexDigit (n : Nat) : Char :=
  if n < 10 then Char.ofNat (48 + n) else Char.ofNat (87 + n)

/-- Four lowercase hex digits of a code unit (for a JSON `\uXXXX` escape). -/
def hex4 (n : Nat) : List Char :=
  [hexDigit (n / 4096 % 16), hexDigit (n / 256 % 16), hexDigit (n / 16 % 16),
   hexDigit (n % 16)]

/-- JSON escaping of one character as `json.dumps` performs it with the
default `ensure_ascii=True`: the two-character escapes for quote, backslash
and the common control characters, `\uXXXX` for other control characters and
all non-ASCII characters (a surrogate pair above U+FFFF), and the character
itself otherwise. -/
def escChar (c : Char) : List Char :=
  if c = '"' then ['\\', '"']
  else if c = '\\' then ['\\', '\\']
  else if c = '\n' then ['\\', 'n']
  else if c = '\r' then ['\\', 'r']
  else if c = '\t' then ['\\', 't']
  else if c = '\x08' then ['\\', 'b']
  else if c = '\x0c' then ['\\', 'f']
  else if c.toNat < 32 ∨ 126 < c.toNat then
    if c.toNat < 65536 then '\\' :: 'u' :: hex4 c.toNat
    else
      '\\' :: 'u' :: hex4 (55296 + (c.toNat - 65536) / 1024) ++
        '\\' :: 'u' :: hex4 (56320 + (c.toNat - 65536) % 1024)
  else [c]

/-- JSON string literal for `s`: quotes around the escaped characters. -/
def quoteStr (s : String) : List Char :=
  '"' :: (s.data.foldr (fun c acc => escChar c ++ acc) []) ++ ['"']

/-- Comma-space joining of already-rendered items (the default `json.dumps`
item separator). -/
def joinComma : List (List Char) → List Char
  | [] => []
  | [x] => x
  | x :: y :: rest => x ++ ',' :: ' ' :: joinComma (y :: rest)

/-- Text of a finite float. Python's `repr` of a binary64 float is
approximated by the text of the rational; its exact digits are irrelevant to
every claim (no claim inspects the rendering of a finite float). -/
def floatRepr (q : ℚ) : List Char :=
  (toString q.num).data ++
    (if q.den = 1 then [] else '/' :: (toString (q.den : Int)).data)

/-- Message `json.dumps` puts in the `ValueError` it raises for a non-finite
float when `allow_nan=False` (CPython formats the offending value's repr into
the message). -/
def outOfRangeMsg (f : PyFloat) : String :=
  "Out of range float values are not JSON compliant: " ++
    (match f with
     | .nan => "nan"
     | .inf => "inf"
     | .negInf => "-inf"
     | .finite _ => "")

/-- Rendering of the bytes envelope that `SafeCodec._default_encoder` returns
for a `bytes` value (safe_codec.py lines 263-268), as `json.dumps` then
serializes it. Written directly rather than through a recursive call because
the envelope's shape is fixed. -/
def dumpBytesEnvelope (bs : List Nat) : List Char :=
  lbrace :: (joinComma
    [quoteStr "__type__" ++ ':' :: ' ' :: quoteStr "bytes",
     quoteStr "encoding" ++ ':' :: ' ' :: quoteStr "base64",
     quoteStr "data" ++ ':' :: ' ' :: '"' :: b64encodeChars bs ++ ['"']]) ++ [rbrace]

mutual

/-- Model of `json.dumps(v, allow_nan=allowNan, default=...)`. `useDefault`
selects whether `SafeCodec._default_encoder` is installed (it is for
`SafeCodec.encode`; it is not for the bare `json.dumps(err_out)` fallback in
`main`). Over `PyVal` the only value the default encoder is consulted for is
`bytes`, which it turns into the base64 envelope; without it, `bytes` raises
`TypeError`. A non-finite float raises `ValueError` unless `allowNan`. -/
def jsonDumpsVal (allowNan useDefault : Bool) (v : PyVal) : Except PyErr (List Char) :=
  match v with
  | .none => .ok "null".data
  | .bool true => .ok "true".data
  | .bool false => .ok "false".data
  | .int n => .ok (toString n).data
  | .float (.finite q) => .ok (floatRepr q)
  | .float .nan =>
      if allowNan then .ok "NaN".data else .error (.valueError (outOfRangeMsg .nan))
  | .float .inf =>
      if allowNan then .ok "Infinity".data else .error (.valueError (outOfRangeMsg .inf))
  | .float .negInf =>
      if allowNan then .ok "-Infinity".data
      else .error (.valueError (outOfRangeMsg .negInf))
  | .str s => .ok (quoteStr s)
  | .bytes bs =>
      if useDefault then .ok (dumpBytesEnvelope bs)
      else .error (.typeError "Object of type bytes is not JSON serializable")
  | .list xs => do return '[' :: (joinComma (← jsonDumpsList allowNan useDefault xs)) ++ [']']
  | .dict kvs => do
      return lbrace :: (joinComma (← jsonDumpsKvs allowNan useDefault kvs)) ++ [rbrace]

/-- Renderings of the elements of a JSON array. -/
def jsonDumpsList (allowNan useDefault : Bool) (xs : List PyVal) :
    Except PyErr (List (List Char)) :=
  match xs with
  | [] => .ok []
  | x :: t => do
      return (← jsonDumpsVal allowNan useDefault x) ::
        (← jsonDumpsList allowNan useDefault t)

/-- Renderings of the `"key": value` items of a JSON object. -/
def jsonDumpsKvs (allowNan useDefault : Bool) (kvs : List (String × PyVal)) :
    Except PyErr (List (List Char)) :=
  match kvs with
  | [] => .ok []
  | (k, v) :: t => do
      return (quoteStr k ++ ':' :: ' ' :: (← jsonDumpsVal allowNan useDefault v)) ::
        (← jsonDumpsKvs allowNan useDefault t)

end

/-- Python `sys.maxsize` on a 64-bit build, used by the bridge as the
"no limit" internal payload bound for `_response_codec` (python_bridge.py
lines 105-108). -/
def pyMaxsize : Nat := 2 ^ 63 - 1

/-- Literal message of the `CodecError` raised by `SafeCodec.encode` for
NaN/Infinity (safe_codec.py lines 153-156). -/
def nanCodecMsg : String := "Cannot serialize NaN - NaN/Infinity not allowed in JSON"

/-- Translation of `SafeCodec.encode` (safe_codec.py lines 128-166):
serialize with the default encoder installed, convert a `ValueError` whose
lowered message mentions nan/infinity into the fixed NaN `CodecError`, wrap
other `ValueError`/`TypeError` into `CodecError`, then enforce
`max_payload_bytes` on the UTF-8 length. -/
def SafeCodec_encode (allowNan : Bool) (maxPayloadBytes : Nat) (v : PyVal) :
    Except PyErr String :=
  match jsonDumpsVal allowNan true v with
  | .error (.valueError m) =>
      if strContains (lowerStr m) "nan" || strContains (lowerStr m) "infinity" ||
          strContains (lowerStr m) "inf" then
        .error (.codecError nanCodecMsg)
      else .error (.codecError ("JSON encoding failed: " ++ m))
  | .error (.typeError m) => .error (.codecError ("JSON encoding failed: " ++ m))
  | .error e => .error e
  | .ok cs =>
      let result := String.mk cs
      if result.utf8ByteSize > maxPayloadBytes then
        .error (.codecError ("Payload exceeds " ++ toString maxPayloadBytes ++ " bytes"))
      else .ok result

/-- Startup configuration of the bridge process: the two size ceilings parsed
once from the environment, the codec fallback flag, and the runtime facts
`handle_meta` reports. -/
structure Config where
  codecMaxBytes : Option Nat := Option.none
  requestMaxBytes : Option Nat := Option.none
  fallbackJson : Bool := false
  pyVersion : String := "3.12.0"
  pid : Int := 0
  arrowAvailable : Bool := false
  scipyAvailable : Bool := false
  torchAvailable : Bool := false
  sklearnAvailable : Bool := false

/-- Translation of `encode_response` (python_bridge.py lines 865-880):
`SafeCodec.encode` with `allow_nan=False` and `sys.maxsize` as the internal
bound, rethrowing `CodecError` as a plain `ValueError` with the same message,
then the explicit `TYWRAP_CODEC_MAX_BYTES` ceiling check. -/
def encode_response (cfg : Config) (out : PyVal) : Except PyErr String :=
  match SafeCodec_encode false pyMaxsize out with
  | .error (.codecError m) => .error (.valueError m)
  | .error e => .error e
  | .ok payload =>
      let payload_bytes := payload.utf8ByteSize
      match cfg.codecMaxBytes with
      | some mx =>
          if payload_bytes > mx then .error (.payloadTooLargeError payload_bytes mx)
          else .ok payload
      | Option.none => .ok payload

mutual

/-- Whether a value contains NaN, positive Infinity or negative Infinity
anywhere inside it. -/
def containsNanInf (v : PyVal) : Bool :=
  match v with
  | .float .nan => true
  | .float .inf => true
  | .float .negInf => true
  | .list xs => containsNanInfList xs
  | .dict kvs => containsNanInfKvs kvs
  | _ => false

/-- NaN/Infinity occurrence in a list of values. -/
def containsNanInfList (xs : List PyVal) : Bool :=
  match xs with
  | [] => false
  | x :: t => containsNanInf x || containsNanInfList t

/-- NaN/Infinity occurrence among dict values. -/
def containsNanInfKvs (kvs : List (String × PyVal)) : Bool :=
  match kvs with
  | [] => false
  | (_, v) :: t => containsNanInf v || containsNanInfKvs t

end

/-- Wire literal of the protocol tag (python_bridge.py line 32). -/
def PROTOCOL : String := "tywrap/1"

/-- Integer protocol version (python_bridge.py line 33). -/
def PROTOCOL_VERSION : Int := 1

/-- Bridge display name (python_bridge.py line 34). -/
def BRIDGE_NAME : String := "python-subprocess"

/-- The process-global `instances` registry: handle string to object. The
object is represented by its CPython address (`id(obj)`), which is also what
the handle string is derived from. -/
abbrev Registry := List (String × Nat)

/-- Python `k in d` on the registry. -/
def regContains (l : Registry) (k : String) : Bool :=
  l.any (fun p => p.1 == k)

/-- Python `d[k]` on the registry (as an option). -/
def regLookup (l : Registry) (k : String) : Option Nat :=
  match l with
  | [] => Option.none
  | (k', v) :: t => if k' == k then some v else regLookup t k

/-- Python `d[k] = v`: replace in place if the key exists, else append
(insertion order preserved, as CPython dicts do). -/
def regSet (l : Registry) (k : String) (v : Nat) : Registry :=
  if regContains l k then l.map (fun p => if p.1 == k then (k, v) else p)
  else l ++ [(k, v)]

/-- Python `del d[k]`. -/
def regErase (l : Registry) (k : String) : Registry :=
  l.filter (fun p => !(p.1 == k))

/-- An exception escaping user handler code (or module/attribute resolution):
its class's short name, `str(exc)`, and the traceback text
`traceback.format_exc()` would produce for it. -/
structure UserExc where
  typeName : String
  msg : String
  tb : String

/-- Oracles for everything outside the bridge's own code: `json.loads`, and
the user Python code reached through `importlib`/`getattr`. `instantiateObj`
returns the CPython address `id(obj)` of the freshly constructed object;
`callMethod` receives the stored object (by address). The oracles are
arbitrary functions: every theorem below holds for all of them unless it
names a concrete one. -/
structure Env where
  jsonLoads : String → Except String PyVal
  callFn : String → String → List PyVal → List (String × PyVal) → Except UserExc PyVal
  instantiateObj : String → String → List PyVal → List (String × PyVal) → Except UserExc Nat
  callMethod : Nat → String → List PyVal → List (String × PyVal) → Except UserExc PyVal

/-- Conversion of an escaped user exception to the modelled exception value. -/
def UserExc.toErr (u : UserExc) : PyErr :=
  .userError u.typeName u.msg u.tb

/-- Translation of `serialize` (python_bridge.py lines 667-686) restricted to
`PyVal`. Every branch of the source dispatch is vacuous here: no value of
`PyVal` is a numpy array, pandas frame/series, scipy matrix, torch tensor,
sklearn estimator or pydantic model (those live outside the JSON+bytes value
universe the wire can carry), and `serialize_stdlib` returns `None` for every
JSON value, so the source falls through to `return obj`. -/
def serialize (v : PyVal) : PyVal := v

/-- Translation of `require_str` (python_bridge.py lines 785-794): the
parameter must be a non-empty string. -/
def require_str (params : List (String × PyVal)) (key : String) :
    Except PyErr String :=
  match dictGet params key with
  | .str s => if s = "" then .error (.protocolError ("Missing " ++ key)) else .ok s
  | _ => .error (.protocolError ("Missing " ++ key))

/-- Translation of `coerce_list` (python_bridge.py lines 797-807). -/
def coerce_list (v : PyVal) (key : String) : Except PyErr (List PyVal) :=
  match v with
  | .none => .ok []
  | .list xs => .ok xs
  | _ => .error (.protocolError ("Invalid " ++ key))

/-- Translation of `coerce_dict` (python_bridge.py lines 810-820). -/
def coerce_dict (v : PyVal) (key : String) :
    Except PyErr (List (String × PyVal)) :=
  match v with
  | .none => .ok []
  | .dict kvs => .ok kvs
  | _ => .error (.protocolError ("Invalid " ++ key))

/-- Translation of `require_protocol` (python_bridge.py lines 773-782): the
payload must be a dict, its `protocol` must equal the literal, and its `id`
must satisfy `isinstance(_, int)` — which accepts every `int`, negative ones
included, and both booleans. The `id` value itself is returned. -/
def require_protocol (msg : PyVal) : Except PyErr PyVal :=
  match msg with
  | .dict kvs =>
      let proto := dictGet kvs "protocol"
      if ¬ (isStrEq proto PROTOCOL = true) then
        .error (.protocolError ("Invalid protocol: " ++ pyStr proto))
      else
        let mid := dictGet kvs "id"
        if ¬ (isinstance_int mid = true) then
          .error (.protocolError ("Invalid request id: " ++ pyStr mid))
        else .ok mid
  | _ => .error (.protocolError "Invalid request payload")

/-- Translation of `handle_call` (python_bridge.py lines 707-715). The
import, attribute lookup and call are the `callFn` oracle; an exception it
raises is rethrown as the user exception. -/
def handle_call (env : Env) (params : List (String × PyVal)) :
    Except PyErr PyVal := do
  let module_name ← require_str params "module"
  let function_name ← require_str params "functionName"
  let args ← deserializeList (← coerce_list (dictGet params "args") "args")
  let kwargs ← deserializeItems (← coerce_dict (dictGet params "kwargs") "kwargs")
  match env.callFn module_name function_name args kwargs with
  | .error u => .error u.toErr
  | .ok res => .ok (serialize res)

/-- Translation of `handle_instantiate` (python_bridge.py lines 718-728):
construct through the oracle, mint the handle as `str(id(obj))`, register the
object under it, return the handle. -/
def handle_instantiate (env : Env) (params : List (String × PyVal))
    (instances : Registry) : Except PyErr (PyVal × Registry) := do
  let module_name ← require_str params "module"
  let class_name ← require_str params "className"
  let args ← deserializeList (← coerce_list (dictGet params "args") "args")
  let kwargs ← deserializeItems (← coerce_dict (dictGet params "kwargs") "kwargs")
  match env.instantiateObj module_name class_name args kwargs with
  | .error u => .error u.toErr
  | .ok addr =>
      let handle_id := toString addr
      .ok (.str handle_id, regSet instances handle_id addr)

/-- Translation of `handle_call_method` (python_bridge.py lines 731-741):
after parameter validation and argument decoding, an unknown handle raises
`InstanceHandleError`; otherwise the stored object's method is invoked via
the oracle. -/
def handle_call_method (env : Env) (params : List (String × PyVal))
    (instances : Registry) : Except PyErr PyVal := do
  let handle_id ← require_str params "handle"
  let method_name ← require_str params "methodName"
  let args ← deserializeList (← coerce_list (dictGet params "args") "args")
  let kwargs ← deserializeItems (← coerce_dict (dictGet params "kwargs") "kwargs")
  match regLookup instances handle_id with
  | Option.none => .error (.instanceHandleError ("Unknown instance handle: " ++ handle_id))
  | some obj =>
      match env.callMethod obj method_name args kwargs with
      | .error u => .error u.toErr
      | .ok res => .ok (serialize res)

/-- Translation of `handle_dispose_instance` (python_bridge.py lines
744-749): remove the handle if present and report whether anything was
removed. -/
def handle_dispose_instance (params : List (String × PyVal))
    (instances : Registry) : Except PyErr (PyVal × Registry) := do
  let handle_id ← require_str params "handle"
  if regContains instances handle_id then
    .ok (.bool true, regErase instances handle_id)
  else
    .ok (.bool false, instances)

/-- Translation of `handle_meta` (python_bridge.py lines 752-770). -/
def handle_meta (cfg : Config) (instances : Registry) : PyVal :=
  .dict [("protocol", .str PROTOCOL),
         ("protocolVersion", .int PROTOCOL_VERSION),
         ("bridge", .str BRIDGE_NAME),
         ("pythonVersion", .str cfg.pyVersion),
         ("pid", .int cfg.pid),
         ("codecFallback", .str (if cfg.fallbackJson then "json" else "none")),
         ("arrowAvailable", .bool cfg.arrowAvailable),
         ("scipyAvailable", .bool cfg.scipyAvailable),
         ("torchAvailable", .bool cfg.torchAvailable),
         ("sklearnAvailable", .bool cfg.sklearnAvailable),
         ("instances", .int instances.length)]

/-- Translation of `dispatch_request` (python_bridge.py lines 823-846):
validate the envelope, extract `method` and `params`, route to the handler.
Returns the validated id, the handler result, and the registry after the
request (only `instantiate` and `dispose_instance` change it; no handler
mutates the registry and then raises). -/
def dispatch_request (env : Env) (cfg : Config) (msg : PyVal)
    (instances : Registry) : Except PyErr (PyVal × PyVal × Registry) := do
  let mid ← require_protocol msg
  let kvs := match msg with
    | .dict kvs => kvs
    | _ => []
  match dictGet kvs "method" with
  | .str method => do
      let params ← coerce_dict (dictGet kvs "params") "params"
      if method = "call" then do
        let r ← handle_call env params
        return (mid, r, instances)
      else if method = "instantiate" then do
        let (r, st') ← handle_instantiate env params instances
        return (mid, r, st')
      else if method = "call_method" then do
        let r ← handle_call_method env params instances
        return (mid, r, instances)
      else if method = "dispose_instance" then do
        let (r, st') ← handle_dispose_instance params instances
        return (mid, r, st')
      else if method = "meta" then
        return (mid, handle_meta cfg instances, instances)
      else .error (.protocolError ("Unknown method: " ++ method))
  | _ => .error (.protocolError "Missing method")

/-- Translation of `build_error_payload` (python_bridge.py lines 849-862):
`type` is the exception class's short name, `message` is `str(exc)`, and a
`traceback` entry is added only when requested; the response id falls back
to `-1` when no request id is known. -/
def build_error_payload (mid : Option PyVal) (e : PyErr) (include_tb : Bool) : PyVal :=
  .dict [("id", mid.getD (.int (-1))),
         ("protocol", .str PROTOCOL),
         ("error", .dict ([("type", .str e.typeName), ("message", .str e.message)] ++
            (if include_tb then [("traceback", .str (formatExc e))] else [])))]

/-- The per-line request ceiling check at the top of `main`'s loop body
(python_bridge.py lines 906-909), applied to the stripped line. -/
def requestSizeCheck (cfg : Config) (line : String) : Except PyErr Unit :=
  match cfg.requestMaxBytes with
  | some mx =>
      let payload_bytes := line.utf8ByteSize
      if payload_bytes > mx then .error (.requestTooLargeError payload_bytes mx)
      else .ok ()
  | Option.none => .ok ()

/-- The request id `main` pre-extracts before dispatch so that handler
failures still answer on the right id (python_bridge.py lines 911-915):
present only when the parsed payload is a dict whose `id` passes
`isinstance(_, int)`. -/
def extractMid (msg : PyVal) : Option PyVal :=
  match msg with
  | .dict kvs =>
      let req_id := dictGet kvs "id"
      if isinstance_int req_id then some req_id else Option.none
  | _ => Option.none

/-- Everything `main` does for one non-empty stripped line up to (not
including) response encoding (python_bridge.py lines 903-933): the size
ceiling, `json.loads`, id pre-extraction, dispatch, and conversion of every
exception into an error payload with the traceback policy of the
`try`/`except` ladder. Returns the response value `out`, the last known id
`mid`, and the registry after the request. -/
def buildOut (env : Env) (cfg : Config) (instances : Registry) (line : String) :
    PyVal × Option PyVal × Registry :=
  match requestSizeCheck cfg line with
  | .error e => (build_error_payload Option.none e false, Option.none, instances)
  | .ok _ =>
      match env.jsonLoads line with
      | .error m =>
          (build_error_payload Option.none (.jsonDecodeError m) false, Option.none,
           instances)
      | .ok msg =>
          let mid0 := extractMid msg
          match dispatch_request env cfg msg instances with
          | .ok (mid, result, st') =>
              (.dict [("id", mid), ("protocol", .str PROTOCOL), ("result", result)],
               some mid, st')
          | .error e =>
              match e with
              | .protocolError m =>
                  (build_error_payload mid0 (.protocolError m) false, mid0, instances)
              | _ => (build_error_payload mid0 e true, mid0, instances)

/-- Outcome of one iteration of `main`'s loop: an ignored empty line, one
written line, or loop exit (the write path's last-ditch failure). -/
inductive LineOut where
  | skip
  | wrote (s : String)
  | halt
deriving DecidableEq, Repr

/-- One iteration of `main`'s loop (python_bridge.py lines 899-946) for one
raw input line: strip, ignore if empty, build the response, encode it, and
on an encoding failure fall back to a bare `json.dumps` of a fresh error
payload; if even that raises, the loop returns. Writing to stdout is
modelled as always succeeding (`write_payload`'s `BrokenPipeError` branch is
the consumer vanishing, outside this model). -/
def processLine (env : Env) (cfg : Config) (instances : Registry) (l0 : String) :
    Registry × LineOut :=
  let line := pyStrip l0
  if line = "" then (instances, .skip)
  else
    let (out, mid, st') := buildOut env cfg instances line
    match encode_response cfg out with
    | .ok payload => (st', .wrote (payload ++ "\n"))
    | .error e =>
        let err_out := build_error_payload mid e false
        match jsonDumpsVal true false err_out with
        | .ok p => (st', .wrote (String.mk p ++ "\n"))
        | .error _ => (st', .halt)

/-- The whole of `main` (python_bridge.py lines 898-946) over a list of raw
input lines: the bridge's standard-output line sequence. -/
def mainLoop (env : Env) (cfg : Config) : Registry → List String → List String
  | _, [] => []
  | st, l :: ls =>
      match processLine env cfg st l with
      | (st', .skip) => mainLoop env cfg st' ls
      | (st', .wrote s) => s :: mainLoop env cfg st' ls
      | (_, .halt) => []

/-- The response envelope whose serialization `main` writes for one raw
line: the built `out` when it encodes, otherwise the fallback error payload;
`none` for an ignored empty line. -/
def writtenEnvelope (env : Env) (cfg : Config) (instances : Registry)
    (l0 : String) : Option PyVal :=
  let line := pyStrip l0
  if line = "" then Option.none
  else
    let (out, mid, _) := buildOut env cfg instances line
    match encode_response cfg out with
    | .ok _ => some out
    | .error e => some (build_error_payload mid e false)

/-- The response value `main` builds (before encoding) for one raw line. -/
def mainOut (env : Env) (cfg : Config) (instances : Registry) (l0 : String) :
    Option PyVal :=
  let line := pyStrip l0
  if line = "" then Option.none
  else some (buildOut env cfg instances line).1

/-- The `error.type` string of a response envelope, if it is an error
response with a string type. -/
def respErrType (o : Option PyVal) : Option String :=
  match o with
  | some (.dict kvs) =>
      match dictFind kvs "error" with
      | some (.dict ekvs) =>
          match dictFind ekvs "type" with
          | some (.str t) => some t
          | _ => Option.none
      | _ => Option.none
  | _ => Option.none

/-- The `error.message` string of a response envelope, if any. -/
def respErrMessage (o : Option PyVal) : Option String :=
  match o with
  | some (.dict kvs) =>
      match dictFind kvs "error" with
      | some (.dict ekvs) =>
          match dictFind ekvs "message" with
          | some (.str m) => some m
          | _ => Option.none
      | _ => Option.none
  | _ => Option.none

/-- Whether a response envelope's error object carries a `traceback` entry. -/
def respHasTraceback (o : Option PyVal) : Bool :=
  match o with
  | some (.dict kvs) =>
      match dictFind kvs "error" with
      | some (.dict ekvs) => (dictFind ekvs "traceback").isSome
      | _ => false
  | _ => false

/-- The `id` field of a response envelope. -/
def respId (o : Option PyVal) : Option PyVal :=
  match o with
  | some (.dict kvs) => dictFind kvs "id"
  | _ => Option.none

/-- Whether a response envelope carries a `result` entry. -/
def respHasResult (o : Option PyVal) : Bool :=
  match o with
  | some (.dict kvs) => (dictFind kvs "result").isSome
  | _ => false

/-- Tail of a Python integer literal after its first digit: digits with
single underscores allowed between digits only (`int("1_0")` is 10;
a leading, trailing or doubled underscore is a `ValueError`). -/
def intLitRest : List Char → Bool
  | [] => true
  | '_' :: rest =>
      match rest with
      | d :: r => d.isDigit && intLitRest r
      | [] => false
  | c :: rest => c.isDigit && intLitRest rest

/-- Numeric value of a digits-and-underscores literal. -/
def digitsVal (cs : List Char) : Nat :=
  cs.foldl (fun a c => if c = '_' then a else a * 10 + (c.toNat - 48)) 0

/-- Model of Python `int(s)` on a decimal string: optional surrounding
whitespace, optional sign, then a digit group with optional single
underscores between digits. `none` models the `ValueError` path. (Unicode
digits, which CPython also accepts, are outside this model; no configuration
value considered here uses them.) -/
def pyIntParse (s : String) : Option Int :=
  let cs := (pyStrip s).data
  let signBody : Bool × List Char :=
    match cs with
    | '+' :: r => (false, r)
    | '-' :: r => (true, r)
    | r => (false, r)
  match signBody.2 with
  | c :: rest =>
      if c.isDigit && intLitRest rest then
        let n := digitsVal (c :: rest)
        some (if signBody.1 then -(n : Int) else (n : Int))
      else Option.none
  | [] => Option.none

/-- Translation of `get_codec_max_bytes` (python_bridge.py lines 75-94),
over the raw value of `TYWRAP_CODEC_MAX_BYTES` (`none` = variable unset):
unset, blank, or non-positive disables the ceiling; an unparseable value
raises `CodecMaxBytesParseError` at startup. -/
def get_codec_max_bytes (raw : Option String) : Except PyErr (Option Int) :=
  match raw with
  | Option.none => .ok Option.none
  | some r0 =>
      let r := pyStrip r0
      if r = "" then .ok Option.none
      else
        match pyIntParse r with
        | Option.none => .error .codecMaxBytesParseError
        | some v => if v ≤ 0 then .ok Option.none else .ok (some v)

/-- Translation of `get_request_max_bytes` (python_bridge.py lines 111-130),
over the raw value of `TYWRAP_REQUEST_MAX_BYTES`; identical to the response
ceiling except for the exception class. -/
def get_request_max_bytes (raw : Option String) : Except PyErr (Option Int) :=
  match raw with
  | Option.none => .ok Option.none
  | some r0 =>
      let r := pyStrip r0
      if r = "" then .ok Option.none
      else
        match pyIntParse r with
        | Option.none => .error .requestMaxBytesParseError
        | some v => if v ≤ 0 then .ok Option.none else .ok (some v)

/-- An operation on the instance registry, as seen by the handle-lifetime
model: a construction (carrying the CPython address `id(obj)` of the new
object, from which `handle_instantiate` mints `str(id(obj))`) or a disposal
of a handle string. -/
inductive RegOp where
  | instantiate (addr : Nat)
  | dispose (handle : String)
deriving DecidableEq, Repr

/-- State of the handle-lifetime model: the registry mapping handle strings
to a ghost identity (the construction ordinal of the object stored there —
"the originally constructed object"), the number of constructions so far,
and every handle string minted so far in order. -/
structure RegState where
  reg : Registry
  constructed : Nat
  minted : List String
deriving Repr

/-- Initial registry state of a fresh bridge process. -/
def regInit : RegState := ⟨[], 0, []⟩

/-- Effect of one operation, mirroring `handle_instantiate` (mint
`str(addr)`, store the object, python_bridge.py lines 726-728) and
`handle_dispose_instance` (remove if present, lines 746-749). -/
def regStep (s : RegState) : RegOp → RegState
  | .instantiate addr =>
      let h := toString addr
      { reg := regSet s.reg h s.constructed,
        constructed := s.constructed + 1,
        minted := s.minted ++ [h] }
  | .dispose h =>
      if regContains s.reg h then { s with reg := regErase s.reg h } else s

/-- What CPython guarantees about `id(obj)` for a newly constructed object:
its address differs from the address of every object that is still alive —
in particular from every object the registry still holds. It does not
guarantee anything against addresses of already-freed (e.g. disposed and
collected) objects. A disposal is always possible. -/
def regOpValid (s : RegState) : RegOp → Bool
  | .instantiate addr => !(regContains s.reg (toString addr))
  | .dispose _ => true

/-- Validity of an operation sequence from a state: every construction's
address is fresh among the then-live registered objects. -/
def regValidFrom (s : RegState) : List RegOp → Bool
  | [] => true
  | op :: ops => regOpValid s op && regValidFrom (regStep s op) ops

/-- Run of an operation sequence from a state. -/
def regRunFrom (s : RegState) : List RegOp → RegState
  | [] => s
  | op :: ops => regRunFrom (regStep s op) ops

/-- Run of an operation sequence from process start. -/
def regRun (ops : List RegOp) : RegState := regRunFrom regInit ops

/-- Whether envelope validation rejected a request with a `ProtocolError`. -/
def isProtocolRejection (r : Except PyErr PyVal) : Bool :=
  match r with
  | .error (.protocolError _) => true
  | _ => false

/-- Default startup configuration: no ceilings, no fallback. -/
def cfgD : Config := {}

/-- Oracle environment in which every external call is unreachable. -/
def envStub : Env :=
  { jsonLoads := fun _ => .error "unreached",
    callFn := fun _ _ _ _ => .error ⟨"RuntimeError", "unreached", "unreached"⟩,
    instantiateObj := fun _ _ _ _ => .error ⟨"RuntimeError", "unreached", "unreached"⟩,
    callMethod := fun _ _ _ _ => .error ⟨"RuntimeError", "unreached", "unreached"⟩ }

/-- Oracle environment whose `json.loads` parses every line to a fixed value. -/
def envConst (msg : PyVal) : Env :=
  { envStub with jsonLoads := fun _ => .ok msg }

/-- A well-formed `call` request envelope with id 4. -/
def msgC2 : PyVal :=
  .dict [("protocol", .str "tywrap/1"), ("id", .int 4), ("method", .str "call"),
         ("params", .dict [("module", .str "m"), ("functionName", .str "f")])]

/-- Environment for the NaN scenario: the handler returns
`[NaN, Infinity, -Infinity]` (spec scenario S4). -/
def envC2 : Env :=
  { envConst msgC2 with
      callFn := fun _ _ _ _ => .ok (.list [.float .nan, .float .inf, .float .negInf]) }

/-- A well-formed `meta` request line whose UTF-8 length (49 bytes) exceeds
the tiny request ceiling configured in `cfgC4`. -/
def lineC4 : String :=
  "\x7b\"protocol\": \"tywrap/1\", \"id\": 7, \"method\": \"meta\"\x7d"

/-- Parse of `lineC4`: a dict whose id 7 is recoverable. -/
def msgC4 : PyVal :=
  .dict [("protocol", .str "tywrap/1"), ("id", .int 7), ("method", .str "meta")]

/-- Configuration with a 10-byte request ceiling. -/
def cfgC4 : Config := { requestMaxBytes := some 10 }

/-- A `call_method` request against a handle that was never minted. -/
def msgC8 : PyVal :=
  .dict [("protocol", .str "tywrap/1"), ("id", .int 1), ("method", .str "call_method"),
         ("params", .dict [("handle", .str "999"), ("methodName", .str "m")])]

/-- A well-formed `meta` request whose id is a JSON boolean. -/
def msgMetaBool (b : Bool) : PyVal :=
  .dict [("protocol", .str "tywrap/1"), ("id", .bool b), ("method", .str "meta")]

/-- Operation sequence that constructs at address 1, disposes the minted
handle, and constructs again at the now-free address 1 — legal for CPython
`id`, since the first object is no longer alive. -/
def c5ops : List RegOp := [.instantiate 1, .dispose "1", .instantiate 1]

/-- C3. The envelope validator's id check is exactly `isinstance(id, int)`:
with a well-formed protocol tag, a request is rejected with `ProtocolError`
precisely when its `id` (absent ids read as `None`) is not an int instance;
every integer id — negative ones included — is accepted and returned. -/
theorem c3_id_validation (kvs : List (String × PyVal))
    (hp : isStrEq (dictGet kvs "protocol") PROTOCOL = true) :
    (isinstance_int (dictGet kvs "id") = false →
       isProtocolRejection (require_protocol (.dict kvs)) = true)
    ∧ (isinstance_int (dictGet kvs "id") = true →
       require_protocol (.dict kvs) = .ok (dictGet kvs "id")) := by
  constructor
  · intro hid
    simp [require_protocol, hp, hid, isProtocolRejection]
  · intro hid
    simp [require_protocol, hp, hid]

/-- C3 witness: a request with a string id is rejected with `ProtocolError`. -/
theorem c3_id_validation_witness :
    isStrEq (dictGet [("protocol", PyVal.str "tywrap/1"), ("id", PyVal.str "7")] "protocol")
        PROTOCOL = true
    ∧ isProtocolRejection (require_protocol
        (.dict [("protocol", PyVal.str "tywrap/1"), ("id", PyVal.str "7")])) = true :=
  ⟨rfl, (c3_id_validation [("protocol", PyVal.str "tywrap/1"), ("id", PyVal.str "7")]
      rfl).1 rfl⟩

/-- C3 counterexample: a request whose id is the negative integer `-5` is
not rejected — `require_protocol` accepts it and returns `-5`, contradicting
the claim that negative integer ids are rejected. -/
theorem c3_counterexample :
    isProtocolRejection (require_protocol
        (.dict [("protocol", PyVal.str "tywrap/1"), ("id", PyVal.int (-5))])) = false
    ∧ require_protocol
        (.dict [("protocol", PyVal.str "tywrap/1"), ("id", PyVal.int (-5))]) =
        .ok (.int (-5)) :=
  ⟨rfl, rfl⟩

/-- Erasing a handle removes it from the registry. -/
theorem regContains_regErase (st : Registry) (h : String) :
    regContains (regErase st h) h = false := by
  induction st with
  | nil => rfl
  | cons p t ih =>
      by_cases hp : p.1 == h
      · simpa [regErase, List.filter_cons, hp] using ih
      · simp only [regErase, List.filter_cons, hp] at ih ⊢
        simp [regContains, List.any_cons, hp, ih]

/-- C7. `dispose_instance` never raises for a non-empty string handle
parameter: disposing an unknown handle answers `False` and leaves the
registry unchanged; disposing a live handle answers `True`, removes it, and
a second dispose of the same handle answers `False` (idempotence). -/
theorem c7_dispose_idempotent (st : Registry) (params : List (String × PyVal))
    (h : String) (hh : dictGet params "handle" = .str h) (hne : h ≠ "") :
    (regContains st h = false →
       handle_dispose_instance params st = .ok (.bool false, st))
    ∧ (regContains st h = true →
       handle_dispose_instance params st = .ok (.bool true, regErase st h)
       ∧ regContains (regErase st h) h = false
       ∧ handle_dispose_instance params (regErase st h) =
           .ok (.bool false, regErase st h)) := by
  constructor
  · intro hc
    simp [handle_dispose_instance, require_str, hh, hne, hc, bind, Except.bind]
  · intro hc
    refine ⟨by simp [handle_dispose_instance, require_str, hh, hne, hc, bind,
      Except.bind], ?_, ?_⟩
    · exact regContains_regErase st h
    · simp [handle_dispose_instance, require_str, hh, hne,
        regContains_regErase st h, bind, Except.bind]

/-- C7 witness: dispose of handle "5" on a registry holding it returns
`True` and removes it; the second dispose returns `False`. -/
theorem c7_dispose_idempotent_witness :
    dictGet [("handle", PyVal.str "5")] "handle" = .str "5"
    ∧ ("5" : String) ≠ ""
    ∧ regContains [("5", 5)] "5" = true
    ∧ handle_dispose_instance [("handle", PyVal.str "5")] [("5", 5)] =
        .ok (.bool true, regErase [("5", 5)] "5")
    ∧ handle_dispose_instance [("handle", PyVal.str "5")] (regErase [("5", 5)] "5") =
        .ok (.bool false, regErase [("5", 5)] "5") := by
  have hmain := c7_dispose_idempotent [("5", 5)] [("handle", PyVal.str "5")] "5" rfl
    (by decide)
  exact ⟨rfl, by decide, rfl, (hmain.2 rfl).1, (hmain.2 rfl).2.2⟩

/-- C9. The size-ceiling configuration readers: an unset or blank variable
disables the ceiling; a value parsing to a positive integer enables it with
that value; a value parsing to a non-positive integer disables it; a value
that does not parse as an integer fails at startup with the respective
configuration parse error. -/
theorem c9_size_ceiling_config (r : String) (v : Int) :
    (get_codec_max_bytes Option.none = .ok Option.none
       ∧ get_request_max_bytes Option.none = .ok Option.none)
    ∧ (pyStrip r = "" →
       get_codec_max_bytes (some r) = .ok Option.none
       ∧ get_request_max_bytes (some r) = .ok Option.none)
    ∧ (pyStrip r ≠ "" → pyIntParse (pyStrip r) = some v → 0 < v →
       get_codec_max_bytes (some r) = .ok (some v)
       ∧ get_request_max_bytes (some r) = .ok (some v))
    ∧ (pyStrip r ≠ "" → pyIntParse (pyStrip r) = some v → v ≤ 0 →
       get_codec_max_bytes (some r) = .ok Option.none
       ∧ get_request_max_bytes (some r) = .ok Option.none)
    ∧ (pyStrip r ≠ "" → pyIntParse (pyStrip r) = Option.none →
       get_codec_max_bytes (some r) = .error .codecMaxBytesParseError
       ∧ get_request_max_bytes (some r) = .error .requestMaxBytesParseError) := by
  refine ⟨⟨rfl, rfl⟩, ?_, ?_, ?_, ?_⟩
  · intro hb
    constructor <;> simp [get_codec_max_bytes, get_request_max_bytes, hb]
  · intro hb hp hv
    have hnle : ¬ (v ≤ 0) := by omega
    constructor <;>
      simp [get_codec_max_bytes, get_request_max_bytes, hb, hp, hnle]
  · intro hb hp hv
    constructor <;>
      simp [get_codec_max_bytes, get_request_max_bytes, hb, hp, hv]
  · intro hb hp
    constructor <;>
      simp [get_codec_max_bytes, get_request_max_bytes, hb, hp]

/-- C9 witness: the value "42" enables a 42-byte ceiling on both readers,
and the value "zz" fails both readers at startup. -/
theorem c9_size_ceiling_config_witness :
    (pyStrip "42" ≠ "" ∧ pyIntParse (pyStrip "42") = some 42
       ∧ (0 : Int) < 42
       ∧ get_codec_max_bytes (some "42") = .ok (some 42)
       ∧ get_request_max_bytes (some "42") = .ok (some 42))
    ∧ (pyStrip "zz" ≠ "" ∧ pyIntParse (pyStrip "zz") = Option.none
       ∧ get_codec_max_bytes (some "zz") = .error .codecMaxBytesParseError) := by
  have h42 := (c9_size_ceiling_config "42" 42).2.2.1 (by decide) (by decide) (by decide)
  have hzz := (c9_size_ceiling_config "zz" 0).2.2.2.2 (by decide) (by decide)
  exact ⟨⟨by decide, by decide, by decide, h42.1, h42.2⟩, ⟨by decide, by decide, hzz.1⟩⟩

/-- The elementwise decoder is `mapM deserialize` over the list. -/
theorem deserializeList_eq_mapM (xs : List PyVal) :
    deserializeList xs = xs.mapM deserialize := by
  induction xs with
  | nil => rfl
  | cons x t ih =>
      rw [deserializeList, List.mapM_cons, ← ih]

/-- The valuewise decoder is `mapM` over items, keys untouched. -/
theorem deserializeItems_eq_mapM (kvs : List (String × PyVal)) :
    deserializeItems kvs =
      kvs.mapM (fun p => (deserialize p.2).map (fun w => (p.1, w))) := by
  induction kvs with
  | nil => rfl
  | cons p t ih =>
      rw [deserializeItems, List.mapM_cons, ← ih]
      cases hx : deserialize p.2 <;>
        simp [hx, bind, Except.bind, pure, Except.pure, Except.map]

/-- C6. The request-value decoder transforms exactly the two bytes-envelope
shapes into native byte strings — with strict base64 validation failing as
`ProtocolError("Invalid bytes envelope: invalid base64")` — and passes every
other value through structurally: scalars unchanged, arrays decoded
elementwise and kept as arrays, non-envelope objects decoded valuewise with
their keys unchanged. -/
theorem c6_request_decoder (kvs : List (String × PyVal)) (s : String) (n : Int)
    (b : Bool) (f : PyFloat) (t : String) (xs : List PyVal) :
    (isTrueLit (dictGet kvs "__tywrap_bytes__") = true →
       dictGet kvs "b64" = .str s →
       deserialize (.dict kvs) =
         (match b64decode s with
          | some bs => .ok (.bytes bs)
          | Option.none =>
              .error (.protocolError "Invalid bytes envelope: invalid base64")))
    ∧ (isTrueLit (dictGet kvs "__tywrap_bytes__") = false →
       isStrEq (dictGet kvs "__type__") "bytes" = true →
       isStrEq (dictGet kvs "encoding") "base64" = true →
       dictGet kvs "data" = .str s →
       deserialize (.dict kvs) =
         (match b64decode s with
          | some bs => .ok (.bytes bs)
          | Option.none =>
              .error (.protocolError "Invalid bytes envelope: invalid base64")))
    ∧ (deserialize PyVal.none = .ok PyVal.none
       ∧ deserialize (.bool b) = .ok (.bool b)
       ∧ deserialize (.int n) = .ok (.int n)
       ∧ deserialize (.float f) = .ok (.float f)
       ∧ deserialize (.str t) = .ok (.str t))
    ∧ (deserialize (.list xs) = (deserializeList xs).map PyVal.list
       ∧ deserializeList xs = xs.mapM deserialize)
    ∧ (isTrueLit (dictGet kvs "__tywrap_bytes__") = false →
       (isStrEq (dictGet kvs "__type__") "bytes"
          && isStrEq (dictGet kvs "encoding") "base64") = false →
       deserialize (.dict kvs) = (deserializeItems kvs).map PyVal.dict
       ∧ deserializeItems kvs =
           kvs.mapM (fun p => (deserialize p.2).map (fun w => (p.1, w)))) := by
  refine ⟨?_, ?_, ?_, ?_, ?_⟩
  · intro h1 hb
    rw [deserialize, deserialize_bytes_envelope]
    simp only [h1, hb, if_pos]
    cases hd : b64decode s <;> simp [hd, ERR_BYTES_INVALID_BASE64]
  · intro h1 h2 h3 hb
    rw [deserialize, deserialize_bytes_envelope]
    simp only [h1, h2, h3, hb, Bool.false_eq_true, if_false, Bool.and_self, if_pos]
    cases hd : b64decode s <;> simp [hd, ERR_BYTES_INVALID_BASE64]
  · exact ⟨rfl, by cases b <;> rfl, rfl, by cases f <;> rfl, rfl⟩
  · constructor
    · have hstep : deserialize (PyVal.list xs)
          = bind (deserializeList xs) (fun ys => pure (PyVal.list ys)) := rfl
      rw [hstep]
      cases hx : deserializeList xs <;>
        simp [hx, bind, Except.bind, pure, Except.pure, Except.map]
    · exact deserializeList_eq_mapM xs
  · intro h1 h2
    constructor
    · rw [deserialize, deserialize_bytes_envelope]
      simp only [h1, h2, Bool.false_eq_true, if_false]
      cases hx : deserializeItems kvs <;>
        simp [hx, bind, Except.bind, pure, Except.pure, Except.map]
    · exact deserializeItems_eq_mapM kvs

/-- C6 witness: the modern envelope carrying base64 "SGVsbG8=" decodes to the
five bytes of "Hello"; the same envelope with payload "!!!" fails with the
exact `ProtocolError`; and a plain object passes through unchanged. -/
theorem c6_request_decoder_witness :
    (isTrueLit (dictGet [("__tywrap_bytes__", PyVal.bool true),
        ("b64", PyVal.str "SGVsbG8=")] "__tywrap_bytes__") = true
     ∧ deserialize (.dict [("__tywrap_bytes__", PyVal.bool true),
         ("b64", PyVal.str "SGVsbG8=")]) = .ok (.bytes [72, 101, 108, 108, 111]))
    ∧ deserialize (.dict [("__tywrap_bytes__", PyVal.bool true),
        ("b64", PyVal.str "!!!")]) =
        .error (.protocolError "Invalid bytes envelope: invalid base64")
    ∧ deserialize (.dict [("a", PyVal.int 1)]) = .ok (.dict [("a", PyVal.int 1)]) := by
  refine ⟨⟨rfl, ?_⟩, ?_, ?_⟩
  · exact ((c6_request_decoder [("__tywrap_bytes__", PyVal.bool true),
      ("b64", PyVal.str "SGVsbG8=")] "SGVsbG8=" 0 true .nan "" []).1 rfl rfl).trans rfl
  · exact ((c6_request_decoder [("__tywrap_bytes__", PyVal.bool true),
      ("b64", PyVal.str "!!!")] "!!!" 0 true .nan "" []).1 rfl rfl).trans rfl
  · exact (((c6_request_decoder [("a", PyVal.int 1)] "" 0 true .nan "" []).2.2.2.2
      rfl rfl).1).trans rfl

/-- Distinctness of the handle strings of all registered (live) objects. -/
def keysDistinct (l : Registry) : Prop :=
  l.Pairwise (fun p q => p.1 ≠ q.1)

/-- A registry does not contain a key exactly when no entry has it. -/
theorem regContains_eq_false_iff (l : Registry) (k : String) :
    regContains l k = false ↔ ∀ p ∈ l, p.1 ≠ k := by
  rw [← Bool.not_eq_true, regContains]
  simp only [List.any_eq_true, beq_iff_eq, not_exists, not_and]

/-- Lookup only sees the keyed prefix: a successful lookup survives any
append. -/
theorem regLookup_append (l l2 : Registry) (h : String) (g : Nat)
    (hl : regLookup l h = some g) : regLookup (l ++ l2) h = some g := by
  induction l with
  | nil => simp [regLookup] at hl
  | cons p t ih =>
      by_cases hp : p.1 == h
      · simpa [regLookup, hp] using hl
      · rw [List.cons_append, regLookup]
        simp only [hp, if_false]
        exact ih (by simpa [regLookup, hp] using hl)

/-- Unfolding of `regLookup` on a cons cell. -/
theorem regLookup_cons (p : String × Nat) (t : Registry) (k : String) :
    regLookup (p :: t) k = if p.1 == k then some p.2 else regLookup t k := rfl

/-- Erasing a different handle leaves a lookup unchanged. -/
theorem regLookup_regErase_ne (l : Registry) (h h' : String) (hne : h ≠ h') :
    regLookup (regErase l h') h = regLookup l h := by
  induction l with
  | nil => rfl
  | cons p t ih =>
      simp only [regErase] at ih ⊢
      rw [List.filter_cons]
      by_cases hp : p.1 == h'
      · have hph : (p.1 == h) = false := by
          rw [beq_iff_eq] at hp
          rw [beq_eq_false_iff_ne, hp]
          exact fun hc => hne hc.symm
        rw [hp, regLookup_cons, hph]
        simp only [Bool.not_true, Bool.false_eq_true, if_false]
        exact ih
      · rw [Bool.not_eq_true] at hp
        rw [hp]
        simp only [Bool.not_false, if_true]
        rw [regLookup_cons, regLookup_cons]
        by_cases hq : p.1 == h
        · rw [hq]
          simp only [if_true]
        · rw [Bool.not_eq_true] at hq
          rw [hq]
          simp only [Bool.false_eq_true, if_false]
          exact ih

/-- A successful lookup exhibits a registered entry with that key. -/
theorem regLookup_mem (l : Registry) (h : String) (g : Nat)
    (hl : regLookup l h = some g) : ∃ p ∈ l, p.1 = h := by
  induction l with
  | nil => simp [regLookup] at hl
  | cons p t ih =>
      by_cases hp : p.1 == h
      · exact ⟨p, List.mem_cons_self p t, by simpa using hp⟩
      · have := ih (by simpa [regLookup, hp] using hl)
        rcases this with ⟨q, hq, hk⟩
        exact ⟨q, List.mem_cons_of_mem p hq, hk⟩

/-- One valid registry operation preserves a live handle's binding unless it
is that handle's own disposal. -/
theorem regLookup_regStep (s : RegState) (op : RegOp)
    (hv : regOpValid s op = true) (h : String) (g : Nat)
    (hl : regLookup s.reg h = some g) (hnd : op ≠ .dispose h) :
    regLookup (regStep s op).reg h = some g := by
  cases op with
  | instantiate addr =>
      have hcf : regContains s.reg (toString addr) = false := by
        simpa [regOpValid] using hv
      simp only [regStep, regSet, hcf, Bool.false_eq_true, if_false]
      exact regLookup_append _ _ _ _ hl
  | dispose h' =>
      have hne : h ≠ h' := by
        intro hcontr
        exact hnd (by rw [hcontr])
      simp only [regStep]
      by_cases hc : regContains s.reg h'
      · simp only [hc, if_pos]
        rw [regLookup_regErase_ne s.reg h h' hne]
        exact hl
      · simp only [hc, if_false]
        exact hl

/-- A valid operation run preserves a live handle's binding as long as the
run never disposes that handle. -/
theorem regRunFrom_stable (ops : List RegOp) (s : RegState)
    (hv : regValidFrom s ops = true) (h : String) (g : Nat)
    (hl : regLookup s.reg h = some g) (hnd : ∀ op ∈ ops, op ≠ .dispose h) :
    regLookup (regRunFrom s ops).reg h = some g := by
  induction ops generalizing s with
  | nil => simpa [regRunFrom] using hl
  | cons op rest ih =>
      rw [regValidFrom, Bool.and_eq_true] at hv
      rw [regRunFrom]
      exact ih (regStep s op) hv.2
        (regLookup_regStep s op hv.1 h g hl (hnd op (List.mem_cons_self op rest)))
        (fun o ho => hnd o (List.mem_cons_of_mem op ho))

/-- Validity across a concatenation splits at the intermediate state. -/
theorem regValidFrom_append (a b : List RegOp) (s : RegState) :
    regValidFrom s (a ++ b) =
      (regValidFrom s a && regValidFrom (regRunFrom s a) b) := by
  induction a generalizing s with
  | nil => simp [regValidFrom, regRunFrom]
  | cons op rest ih =>
      simp [regValidFrom, regRunFrom, ih, Bool.and_assoc]

/-- Running a concatenation runs the pieces in order. -/
theorem regRunFrom_append (a b : List RegOp) (s : RegState) :
    regRunFrom s (a ++ b) = regRunFrom (regRunFrom s a) b := by
  induction a generalizing s with
  | nil => rfl
  | cons op rest ih => simp [regRunFrom, ih]

/-- Registering under a fresh key preserves key distinctness. -/
theorem keysDistinct_regSet_fresh (l : Registry) (k : String) (v : Nat)
    (hc : regContains l k = false) (hd : keysDistinct l) :
    keysDistinct (regSet l k v) := by
  rw [regSet, hc]
  simp only [Bool.false_eq_true, if_false]
  rw [keysDistinct, List.pairwise_append]
  refine ⟨hd, List.pairwise_singleton _ _, ?_⟩
  intro p hp q hq
  rw [List.mem_singleton] at hq
  subst hq
  exact (regContains_eq_false_iff l k).mp hc p hp

/-- Erasure preserves key distinctness. -/
theorem keysDistinct_regErase (l : Registry) (h : String)
    (hd : keysDistinct l) : keysDistinct (regErase l h) :=
  List.Pairwise.sublist (List.filter_sublist l) hd

/-- One valid operation preserves key distinctness of the registry. -/
theorem regStep_keysDistinct (s : RegState) (op : RegOp)
    (hv : regOpValid s op = true) (hd : keysDistinct s.reg) :
    keysDistinct (regStep s op).reg := by
  cases op with
  | instantiate addr =>
      have hcf : regContains s.reg (toString addr) = false := by
        simpa [regOpValid] using hv
      exact keysDistinct_regSet_fresh _ _ _ hcf hd
  | dispose h' =>
      simp only [regStep]
      by_cases hc : regContains s.reg h'
      · simp only [hc, if_pos]
        exact keysDistinct_regErase _ _ hd
      · simp only [hc, if_false]
        exact hd

/-- A valid run preserves key distinctness of the registry. -/
theorem regRunFrom_keysDistinct (ops : List RegOp) (s : RegState)
    (hv : regValidFrom s ops = true) (hd : keysDistinct s.reg) :
    keysDistinct (regRunFrom s ops).reg := by
  induction ops generalizing s with
  | nil => simpa [regRunFrom] using hd
  | cons op rest ih =>
      rw [regValidFrom, Bool.and_eq_true] at hv
      rw [regRunFrom]
      exact ih (regStep s op) hv.2 (regStep_keysDistinct s op hv.1 hd)

/-- C5 (amended). Under CPython's actual guarantee — a fresh object's address
differs from every live registered object's address — the registry keeps live
handles pairwise distinct, and a live handle keeps resolving to the
originally constructed object (its ghost construction ordinal) until its own
disposal: reuse of a handle string is possible only after the handle was
disposed. -/
theorem c5_live_handle_registry (pre suf : List RegOp) (h : String) (g : Nat)
    (hv : regValidFrom regInit (pre ++ suf) = true)
    (hl : regLookup (regRun pre).reg h = some g)
    (hnd : ∀ op ∈ suf, op ≠ RegOp.dispose h) :
    regLookup (regRun (pre ++ suf)).reg h = some g
    ∧ keysDistinct (regRun (pre ++ suf)).reg := by
  rw [regValidFrom_append] at hv
  rw [Bool.and_eq_true] at hv
  constructor
  · rw [regRun, regRunFrom_append]
    exact regRunFrom_stable suf (regRunFrom regInit pre) hv.2 h g hl hnd
  · rw [regRun, regRunFrom_append]
    refine regRunFrom_keysDistinct suf (regRunFrom regInit pre) hv.2 ?_
    refine regRunFrom_keysDistinct pre regInit hv.1 ?_
    exact List.Pairwise.nil

/-- C5 witness: after constructing at address 5, a construction at the
distinct address 7 leaves handle "5" bound to the first object (ghost
ordinal 0), and the live handles are distinct. -/
theorem c5_live_handle_registry_witness :
    regValidFrom regInit ([RegOp.instantiate 5] ++ [RegOp.instantiate 7]) = true
    ∧ regLookup (regRun [RegOp.instantiate 5]).reg "5" = some 0
    ∧ (∀ op ∈ [RegOp.instantiate 7], op ≠ RegOp.dispose "5")
    ∧ regLookup (regRun ([RegOp.instantiate 5] ++ [RegOp.instantiate 7])).reg "5" =
        some 0 := by
  have hmain := c5_live_handle_registry [RegOp.instantiate 5] [RegOp.instantiate 7]
    "5" 0 (by decide) (by decide) (by decide)
  exact ⟨by decide, by decide, by decide, hmain.1⟩

/-- C5 counterexample: the claim that minted handles are pairwise distinct
across a process lifetime fails — after a handle is disposed its object can
be collected and a later construction can reuse the address, minting the
same handle string again, as the valid run `c5ops` (construct at address 1,
dispose, construct at address 1 again) shows. -/
theorem c5_counterexample :
    ¬ (∀ ops : List RegOp, regValidFrom regInit ops = true →
         List.Pairwise (fun a b => a ≠ b) (regRun ops).minted) := by
  intro hcl
  have hp := hcl c5ops (by decide)
  have hm : (regRun c5ops).minted = ["1", "1"] := by decide
  rw [hm] at hp
  cases hp with
  | cons h1 _ => exact h1 "1" (List.mem_singleton.mpr rfl) rfl

/-- An error payload built without a traceback has no traceback entry. -/
theorem respHasTraceback_build (mid : Option PyVal) (e : PyErr) :
    respHasTraceback (some (build_error_payload mid e false)) = false := rfl

/-- An error payload built with a traceback has a traceback entry. -/
theorem respHasTraceback_build_tb (mid : Option PyVal) (e : PyErr) :
    respHasTraceback (some (build_error_payload mid e true)) = true := rfl

/-- The error type of a built error payload is the exception's short name. -/
theorem respErrType_build (mid : Option PyVal) (e : PyErr) (tb : Bool) :
    respErrType (some (build_error_payload mid e tb)) = some e.typeName := by
  cases tb <;> rfl

/-- The error message of a built error payload is `str(exc)`. -/
theorem respErrMessage_build (mid : Option PyVal) (e : PyErr) (tb : Bool) :
    respErrMessage (some (build_error_payload mid e tb)) = some e.message := by
  cases tb <;> rfl

/-- With no known request id, a built error payload answers on id `-1`. -/
theorem respId_build_none (e : PyErr) (tb : Bool) :
    respId (some (build_error_payload Option.none e tb)) = some (.int (-1)) := by
  cases tb <;> rfl

/-- With a known request id, a built error payload answers on it. -/
theorem respId_build_some (v : PyVal) (e : PyErr) (tb : Bool) :
    respId (some (build_error_payload (some v) e tb)) = some v := by
  cases tb <;> rfl

/-- A line whose stripped form exceeds the configured request ceiling
short-circuits to the `RequestTooLargeError` payload before parsing, with no
request id known. -/
theorem mainOut_request_too_large (env : Env) (cfg : Config) (st : Registry)
    (l : String) (mx : Nat) (hne : pyStrip l ≠ "")
    (hmx : cfg.requestMaxBytes = some mx)
    (hsz : (pyStrip l).utf8ByteSize > mx) :
    mainOut env cfg st l =
      some (build_error_payload Option.none
        (.requestTooLargeError (pyStrip l).utf8ByteSize mx) false) := by
  simp only [mainOut, if_neg hne]
  simp only [buildOut, requestSizeCheck, hmx, hsz, if_pos]

/-- A line that passes the ceiling but fails `json.loads` produces the
`JSONDecodeError` payload with no request id known. -/
theorem mainOut_json_error (env : Env) (cfg : Config) (st : Registry)
    (l : String) (m : String) (hne : pyStrip l ≠ "")
    (hsz : requestSizeCheck cfg (pyStrip l) = .ok ())
    (hld : env.jsonLoads (pyStrip l) = .error m) :
    mainOut env cfg st l =
      some (build_error_payload Option.none (.jsonDecodeError m) false) := by
  simp only [mainOut, if_neg hne]
  simp only [buildOut, hsz, hld]

/-- A dispatch failure other than `ProtocolError` is answered by the generic
handler-exception branch: the same exception, with a traceback. -/
theorem mainOut_dispatch_error (env : Env) (cfg : Config) (st : Registry)
    (l : String) (msg : PyVal) (e : PyErr) (hne : pyStrip l ≠ "")
    (hsz : requestSizeCheck cfg (pyStrip l) = .ok ())
    (hld : env.jsonLoads (pyStrip l) = .ok msg)
    (hd : dispatch_request env cfg msg st = .error e)
    (hnp : ∀ m, e ≠ .protocolError m) :
    mainOut env cfg st l = some (build_error_payload (extractMid msg) e true) := by
  simp only [mainOut, if_neg hne]
  simp only [buildOut, hsz, hld, hd]

/-- A dispatch failure that is a `ProtocolError` is answered without a
traceback. -/
theorem mainOut_protocol_error (env : Env) (cfg : Config) (st : Registry)
    (l : String) (msg : PyVal) (m : String) (hne : pyStrip l ≠ "")
    (hsz : requestSizeCheck cfg (pyStrip l) = .ok ())
    (hld : env.jsonLoads (pyStrip l) = .ok msg)
    (hd : dispatch_request env cfg msg st = .error (.protocolError m)) :
    mainOut env cfg st l =
      some (build_error_payload (extractMid msg) (.protocolError m) false) := by
  simp only [mainOut, if_neg hne]
  simp only [buildOut, hsz, hld, hd]

/-- C4 (amended). For every non-empty input line whose UTF-8 byte length
exceeds the configured request ceiling, the bridge answers with an error of
kind `RequestTooLargeError` and no traceback — and because the check runs
before the line is parsed, the response id is always `-1`, even when an id
would be recoverable from the line. -/
theorem c4_request_too_large (env : Env) (cfg : Config) (st : Registry)
    (l : String) (mx : Nat) (hne : pyStrip l ≠ "")
    (hmx : cfg.requestMaxBytes = some mx)
    (hsz : (pyStrip l).utf8ByteSize > mx) :
    mainOut env cfg st l =
      some (build_error_payload Option.none
        (.requestTooLargeError (pyStrip l).utf8ByteSize mx) false)
    ∧ respErrType (mainOut env cfg st l) = some "RequestTooLargeError"
    ∧ respId (mainOut env cfg st l) = some (.int (-1))
    ∧ respHasTraceback (mainOut env cfg st l) = false := by
  have h1 := mainOut_request_too_large env cfg st l mx hne hmx hsz
  refine ⟨h1, ?_, ?_, ?_⟩ <;> rw [h1]
  · exact respErrType_build _ _ _
  · exact respId_build_none _ _
  · exact respHasTraceback_build _ _

/-- C4 witness: the 49-byte request `lineC4` against a 10-byte ceiling is
answered with `RequestTooLargeError` on id `-1`. -/
theorem c4_request_too_large_witness :
    pyStrip lineC4 ≠ ""
    ∧ cfgC4.requestMaxBytes = some 10
    ∧ (pyStrip lineC4).utf8ByteSize > 10
    ∧ respErrType (mainOut (envConst msgC4) cfgC4 [] lineC4) =
        some "RequestTooLargeError"
    ∧ respId (mainOut (envConst msgC4) cfgC4 [] lineC4) = some (.int (-1)) := by
  have hmain := c4_request_too_large (envConst msgC4) cfgC4 [] lineC4 10
    (by decide) rfl (by decide)
  exact ⟨by decide, rfl, by decide, hmain.2.1, hmain.2.2.1⟩

/-- C4 counterexample: the oversized line `lineC4` parses to a dict with the
recoverable id 7 (the oracle recovers it, and `main`'s own pre-extraction
would find it), yet the response id is `-1`, not 7 — the claim's
"id preserved when recoverable" clause fails because the ceiling check runs
before any parsing. -/
theorem c4_counterexample :
    (envConst msgC4).jsonLoads lineC4 = .ok msgC4
    ∧ extractMid msgC4 = some (.int 7)
    ∧ respId (mainOut (envConst msgC4) cfgC4 [] lineC4) = some (.int (-1))
    ∧ PyVal.int (-1) ≠ PyVal.int 7 := by
  refine ⟨rfl, rfl, rfl, by simp⟩

/-- C8 (amended). Traceback policy of the response builder: an input line
over the request ceiling, a JSON parse failure, and a `ProtocolError` from
validation/dispatch are answered without a traceback; any other exception
escaping dispatch — user handler exceptions, which keep their class's short
name verbatim in `error.type` and `str(exc)` in `error.message`, but also the
bridge's own `InstanceHandleError` — is answered by the generic handler
branch with a traceback attached; and the encode-stage fallback payloads
(`PayloadTooLargeError`, the `ValueError` rethrown from `CodecError`) never
carry one. -/
theorem c8_traceback_policy (env : Env) (cfg : Config) (st : Registry)
    (l : String) (hne : pyStrip l ≠ "") :
    (∀ mx, cfg.requestMaxBytes = some mx → (pyStrip l).utf8ByteSize > mx →
       respErrType (mainOut env cfg st l) = some "RequestTooLargeError"
       ∧ respHasTraceback (mainOut env cfg st l) = false)
    ∧ (∀ m, requestSizeCheck cfg (pyStrip l) = .ok () →
       env.jsonLoads (pyStrip l) = .error m →
       respErrType (mainOut env cfg st l) = some "JSONDecodeError"
       ∧ respHasTraceback (mainOut env cfg st l) = false)
    ∧ (∀ msg m, requestSizeCheck cfg (pyStrip l) = .ok () →
       env.jsonLoads (pyStrip l) = .ok msg →
       dispatch_request env cfg msg st = .error (.protocolError m) →
       respErrType (mainOut env cfg st l) = some "ProtocolError"
       ∧ respHasTraceback (mainOut env cfg st l) = false)
    ∧ (∀ msg e, requestSizeCheck cfg (pyStrip l) = .ok () →
       env.jsonLoads (pyStrip l) = .ok msg →
       dispatch_request env cfg msg st = .error e →
       (∀ m, e ≠ .protocolError m) →
       mainOut env cfg st l = some (build_error_payload (extractMid msg) e true)
       ∧ respErrType (mainOut env cfg st l) = some e.typeName
       ∧ respErrMessage (mainOut env cfg st l) = some e.message
       ∧ respHasTraceback (mainOut env cfg st l) = true)
    ∧ (∀ mid e, respHasTraceback (some (build_error_payload mid e false)) = false) := by
  refine ⟨?_, ?_, ?_, ?_, ?_⟩
  · intro mx hmx hsz
    have h1 := mainOut_request_too_large env cfg st l mx hne hmx hsz
    rw [h1]
    exact ⟨respErrType_build _ _ _, respHasTraceback_build _ _⟩
  · intro m hsz hld
    have h1 := mainOut_json_error env cfg st l m hne hsz hld
    rw [h1]
    exact ⟨respErrType_build _ _ _, respHasTraceback_build _ _⟩
  · intro msg m hsz hld hd
    have h1 := mainOut_protocol_error env cfg st l msg m hne hsz hld hd
    rw [h1]
    exact ⟨respErrType_build _ _ _, respHasTraceback_build _ _⟩
  · intro msg e hsz hld hd hnp
    have h1 := mainOut_dispatch_error env cfg st l msg e hne hsz hld hd hnp
    rw [h1]
    exact ⟨rfl, respErrType_build _ _ _, respErrMessage_build _ _ _,
      respHasTraceback_build_tb _ _⟩
  · intro mid e
    exact respHasTraceback_build _ _

/-- C8 witness: a user handler exception of class "KeyError" is answered
with `error.type = "KeyError"`, its message, and a traceback. -/
theorem c8_traceback_policy_witness :
    pyStrip "x" ≠ ""
    ∧ requestSizeCheck cfgD (pyStrip "x") = .ok ()
    ∧ ({ envConst msgC2 with
          callFn := fun _ _ _ _ =>
            .error ⟨"KeyError", "missing key", "tb-text"⟩ } : Env).jsonLoads
        (pyStrip "x") = .ok msgC2
    ∧ dispatch_request
        { envConst msgC2 with
          callFn := fun _ _ _ _ => .error ⟨"KeyError", "missing key", "tb-text"⟩ }
        cfgD msgC2 [] = .error (.userError "KeyError" "missing key" "tb-text")
    ∧ respErrType (mainOut
        { envConst msgC2 with
          callFn := fun _ _ _ _ => .error ⟨"KeyError", "missing key", "tb-text"⟩ }
        cfgD [] "x") = some "KeyError"
    ∧ respHasTraceback (mainOut
        { envConst msgC2 with
          callFn := fun _ _ _ _ => .error ⟨"KeyError", "missing key", "tb-text"⟩ }
        cfgD [] "x") = true := by
  have hmain := (c8_traceback_policy
    { envConst msgC2 with
      callFn := fun _ _ _ _ => .error ⟨"KeyError", "missing key", "tb-text"⟩ }
    cfgD [] "x" (by decide)).2.2.2.1 msgC2
    (.userError "KeyError" "missing key" "tb-text") rfl rfl rfl
    (fun m h => PyErr.noConfusion h)
  exact ⟨by decide, rfl, rfl, rfl, hmain.2.1, hmain.2.2.2⟩

/-- C8 counterexample: `call_method` on an unknown handle raises the
bridge-internal `InstanceHandleError`, yet the response carries a traceback
entry — the claim that `InstanceHandleError` responses contain no traceback
field fails (the exception is caught by the generic handler branch of
`main`, python_bridge.py lines 922-924). -/
theorem c8_counterexample :
    respErrType (mainOut (envConst msgC8) cfgD [] "x") = some "InstanceHandleError"
    ∧ respHasTraceback (mainOut (envConst msgC8) cfgD [] "x") = true := ⟨rfl, rfl⟩

/-- C10. A request whose id is a JSON boolean passes the envelope
validator's `isinstance(id, int)` check (bool is a subclass of int in
CPython), is dispatched normally, and the written response's id is that
boolean value, with a `result` entry present. -/
theorem c10_boolean_id (b : Bool) :
    require_protocol (msgMetaBool b) = .ok (.bool b)
    ∧ writtenEnvelope (envConst (msgMetaBool b)) cfgD [] "x" =
        some (.dict [("id", .bool b), ("protocol", .str PROTOCOL),
                     ("result", handle_meta cfgD [])])
    ∧ respId (writtenEnvelope (envConst (msgMetaBool b)) cfgD [] "x") =
        some (.bool b)
    ∧ respHasResult (writtenEnvelope (envConst (msgMetaBool b)) cfgD [] "x") =
        true := by
  cases b <;> exact ⟨rfl, rfl, rfl, rfl⟩

/-- A serialization outcome that is exactly the `ValueError` `json.dumps`
raises for one of the three non-finite floats. -/
def isNanInfDumpError {α : Type} : Except PyErr α → Prop
  | .error (.valueError m) =>
      m = outOfRangeMsg .nan ∨ m = outOfRangeMsg .inf ∨ m = outOfRangeMsg .negInf
  | _ => False

mutual

/-- With the default encoder installed and `allow_nan=False`, serializing a
value that contains NaN or an infinity fails with the out-of-range
`ValueError` (the only error this configuration can raise). -/
theorem jsonDumpsVal_nan (v : PyVal) (h : containsNanInf v = true) :
    isNanInfDumpError (jsonDumpsVal false true v) :=
  match v, h with
  | .float .nan, _ => Or.inl rfl
  | .float .inf, _ => Or.inr (Or.inl rfl)
  | .float .negInf, _ => Or.inr (Or.inr rfl)
  | .list xs, h => by
      have hx := jsonDumpsList_nan xs (by simpa [containsNanInf] using h)
      simp only [jsonDumpsVal]
      cases he : jsonDumpsList false true xs with
      | error e =>
          rw [he] at hx
          cases e <;> simp_all [bind, Except.bind, isNanInfDumpError]
      | ok r => rw [he] at hx; exact absurd hx (by simp [isNanInfDumpError])
  | .dict kvs, h => by
      have hx := jsonDumpsKvs_nan kvs (by simpa [containsNanInf] using h)
      simp only [jsonDumpsVal]
      cases he : jsonDumpsKvs false true kvs with
      | error e =>
          rw [he] at hx
          cases e <;> simp_all [bind, Except.bind, isNanInfDumpError]
      | ok r => rw [he] at hx; exact absurd hx (by simp [isNanInfDumpError])

/-- List version of `jsonDumpsVal_nan`. -/
theorem jsonDumpsList_nan (xs : List PyVal) (h : containsNanInfList xs = true) :
    isNanInfDumpError (jsonDumpsList false true xs) :=
  match xs, h with
  | x :: t, h => by
      rw [containsNanInfList, Bool.or_eq_true] at h
      simp only [jsonDumpsList]
      cases hx : jsonDumpsVal false true x with
      | error e =>
          rcases h with h | h
          · have := jsonDumpsVal_nan x h
            rw [hx] at this
            cases e <;> simp_all [bind, Except.bind, isNanInfDumpError]
          · -- the head failed; its error must itself be a float error or
            -- the head contains no NaN, in which case the tail's does not
            -- surface. The head error is the out-of-range ValueError only
            -- when the head contains NaN; with `useDefault` the only
            -- possible failure is a float failure, shown below.
            have := jsonDumpsVal_noNan_ok_or_float x
            rw [hx] at this
            cases e <;> simp_all [bind, Except.bind, isNanInfDumpError]
      | ok r =>
          rcases h with h | h
          · have := jsonDumpsVal_nan x h
            rw [hx] at this
            exact absurd this (by simp [isNanInfDumpError])
          · have := jsonDumpsList_nan t h
            cases ht : jsonDumpsList false true t with
            | error e =>
                rw [ht] at this
                cases e <;> simp_all [bind, Except.bind, isNanInfDumpError]
            | ok r2 =>
                rw [ht] at this
                exact absurd this (by simp [isNanInfDumpError])

/-- Items version of `jsonDumpsVal_nan`. -/
theorem jsonDumpsKvs_nan (kvs : List (String × PyVal))
    (h : containsNanInfKvs kvs = true) :
    isNanInfDumpError (jsonDumpsKvs false true kvs) :=
  match kvs, h with
  | (k, v) :: t, h => by
      rw [containsNanInfKvs, Bool.or_eq_true] at h
      simp only [jsonDumpsKvs]
      cases hx : jsonDumpsVal false true v with
      | error e =>
          rcases h with h | h
          · have := jsonDumpsVal_nan v h
            rw [hx] at this
            cases e <;> simp_all [bind, Except.bind, isNanInfDumpError]
          · have := jsonDumpsVal_noNan_ok_or_float v
            rw [hx] at this
            cases e <;> simp_all [bind, Except.bind, isNanInfDumpError]
      | ok r =>
          rcases h with h | h
          · have := jsonDumpsVal_nan v h
            rw [hx] at this
            exact absurd this (by simp [isNanInfDumpError])
          · have := jsonDumpsKvs_nan t h
            cases ht : jsonDumpsKvs false true t with
            | error e =>
                rw [ht] at this
                cases e <;> simp_all [bind, Except.bind, isNanInfDumpError]
            | ok r2 =>
                rw [ht] at this
                exact absurd this (by simp [isNanInfDumpError])

/-- With the default encoder installed, a serialization failure is always
the non-finite-float `ValueError`: every other value kind serializes. -/
theorem jsonDumpsVal_noNan_ok_or_float (v : PyVal) :
    (∃ r, jsonDumpsVal false true v = .ok r)
    ∨ isNanInfDumpError (jsonDumpsVal false true v) :=
  match v with
  | .none => Or.inl ⟨_, rfl⟩
  | .bool true => Or.inl ⟨_, rfl⟩
  | .bool false => Or.inl ⟨_, rfl⟩
  | .int _ => Or.inl ⟨_, rfl⟩
  | .float (.finite _) => Or.inl ⟨_, rfl⟩
  | .float .nan => Or.inr (Or.inl rfl)
  | .float .inf => Or.inr (Or.inr (Or.inl rfl))
  | .float .negInf => Or.inr (Or.inr (Or.inr rfl))
  | .str _ => Or.inl ⟨_, rfl⟩
  | .bytes _ => Or.inl ⟨_, rfl⟩
  | .list xs => by
      simp only [jsonDumpsVal]
      cases he : jsonDumpsList false true xs with
      | error e =>
          have := jsonDumpsList_noNan_ok_or_float xs
          rw [he] at this
          rcases this with ⟨r, hr⟩ | hflt
          · exact absurd hr (by simp)
          · cases e <;> simp_all [bind, Except.bind, isNanInfDumpError]
      | ok r => exact Or.inl ⟨_, by simp [bind, Except.bind, pure, Except.pure]; try rfl⟩
  | .dict kvs => by
      simp only [jsonDumpsVal]
      cases he : jsonDumpsKvs false true kvs with
      | error e =>
          have := jsonDumpsKvs_noNan_ok_or_float kvs
          rw [he] at this
          rcases this with ⟨r, hr⟩ | hflt
          · exact absurd hr (by simp)
          · cases e <;> simp_all [bind, Except.bind, isNanInfDumpError]
      | ok r => exact Or.inl ⟨_, by simp [bind, Except.bind, pure, Except.pure]; try rfl⟩

/-- List version of `jsonDumpsVal_noNan_ok_or_float`. -/
theorem jsonDumpsList_noNan_ok_or_float (xs : List PyVal) :
    (∃ r, jsonDumpsList false true xs = .ok r)
    ∨ isNanInfDumpError (jsonDumpsList false true xs) :=
  match xs with
  | [] => Or.inl ⟨_, rfl⟩
  | x :: t => by
      simp only [jsonDumpsList]
      cases hx : jsonDumpsVal false true x with
      | error e =>
          have := jsonDumpsVal_noNan_ok_or_float x
          rw [hx] at this
          rcases this with ⟨r, hr⟩ | hflt
          · exact absurd hr (by simp)
          · cases e <;> simp_all [bind, Except.bind, isNanInfDumpError]
      | ok r =>
          cases ht : jsonDumpsList false true t with
          | error e =>
              have := jsonDumpsList_noNan_ok_or_float t
              rw [ht] at this
              rcases this with ⟨r2, hr⟩ | hflt
              · exact absurd hr (by simp)
              · cases e <;> simp_all [bind, Except.bind, isNanInfDumpError]
          | ok r2 => exact Or.inl ⟨_, by simp [bind, Except.bind, pure, Except.pure]; try rfl⟩

/-- Items version of `jsonDumpsVal_noNan_ok_or_float`. -/
theorem jsonDumpsKvs_noNan_ok_or_float (kvs : List (String × PyVal)) :
    (∃ r, jsonDumpsKvs false true kvs = .ok r)
    ∨ isNanInfDumpError (jsonDumpsKvs false true kvs) :=
  match kvs with
  | [] => Or.inl ⟨_, rfl⟩
  | (k, v) :: t => by
      simp only [jsonDumpsKvs]
      cases hx : jsonDumpsVal false true v with
      | error e =>
          have := jsonDumpsVal_noNan_ok_or_float v
          rw [hx] at this
          rcases this with ⟨r, hr⟩ | hflt
          · exact absurd hr (by simp)
          · cases e <;> simp_all [bind, Except.bind, isNanInfDumpError]
      | ok r =>
          cases ht : jsonDumpsKvs false true t with
          | error e =>
              have := jsonDumpsKvs_noNan_ok_or_float t
              rw [ht] at this
              rcases this with ⟨r2, hr⟩ | hflt
              · exact absurd hr (by simp)
              · cases e <;> simp_all [bind, Except.bind, isNanInfDumpError]
          | ok r2 => exact Or.inl ⟨_, by simp [bind, Except.bind, pure, Except.pure]; try rfl⟩

end

/-- `SafeCodec.encode` with `allow_nan=False` on a value containing NaN or
an infinity fails with the fixed NaN `CodecError` for any payload bound
(the message check recognises all three out-of-range messages). -/
theorem SafeCodec_encode_nan (mx : Nat) (v : PyVal)
    (h : containsNanInf v = true) :
    SafeCodec_encode false mx v = .error (.codecError nanCodecMsg) := by
  have hd := jsonDumpsVal_nan v h
  cases he : jsonDumpsVal false true v with
  | ok r =>
      rw [he] at hd
      exact absurd hd (by simp [isNanInfDumpError])
  | error e =>
      rw [he] at hd
      cases e
      case valueError m =>
        simp only [isNanInfDumpError] at hd
        rcases hd with rfl | rfl | rfl <;> simp only [SafeCodec_encode, he] <;> rfl
      all_goals exact hd.elim

/-- A successful response envelope whose result contains NaN or an infinity
still contains it. -/
theorem containsNanInf_result (mid v : PyVal) (h : containsNanInf v = true) :
    containsNanInf
      (.dict [("id", mid), ("protocol", .str PROTOCOL), ("result", v)]) = true := by
  simp [containsNanInf, containsNanInfKvs, h]

/-- `encode_response` on a response containing NaN or an infinity raises the
`ValueError` carrying the NaN `CodecError` message (python_bridge.py lines
872-876). -/
theorem encode_response_nan (cfg : Config) (out : PyVal)
    (h : containsNanInf out = true) :
    encode_response cfg out = .error (.valueError nanCodecMsg) := by
  have hs := SafeCodec_encode_nan pyMaxsize out h
  simp only [encode_response, hs]

/-- C2 (amended). When a handler result contains NaN, positive Infinity or
negative Infinity, encoding the response fails and the bridge answers on the
request's id with an error response whose `error.type` is `"ValueError"`
(the bridge converts the codec's `CodecError` into a plain `ValueError`,
python_bridge.py lines 874-876) and whose `error.message` — the `CodecError`
message — names NaN. -/
theorem c2_nan_rejection (env : Env) (cfg : Config) (st : Registry)
    (l : String) (msg mid v : PyVal) (st' : Registry)
    (hne : pyStrip l ≠ "")
    (hsz : requestSizeCheck cfg (pyStrip l) = .ok ())
    (hld : env.jsonLoads (pyStrip l) = .ok msg)
    (hd : dispatch_request env cfg msg st = .ok (mid, v, st'))
    (hnan : containsNanInf v = true) :
    writtenEnvelope env cfg st l =
      some (build_error_payload (some mid) (.valueError nanCodecMsg) false)
    ∧ respErrType (writtenEnvelope env cfg st l) = some "ValueError"
    ∧ respErrMessage (writtenEnvelope env cfg st l) = some nanCodecMsg
    ∧ strContains nanCodecMsg "NaN" = true
    ∧ respId (writtenEnvelope env cfg st l) = some mid := by
  have hout : writtenEnvelope env cfg st l =
      some (build_error_payload (some mid) (.valueError nanCodecMsg) false) := by
    simp only [writtenEnvelope, if_neg hne]
    simp only [buildOut, hsz, hld, hd]
    rw [encode_response_nan cfg _ (containsNanInf_result mid v hnan)]
  refine ⟨hout, ?_, ?_, by decide, ?_⟩ <;> rw [hout]
  · exact respErrType_build _ _ _
  · exact respErrMessage_build _ _ _
  · exact respId_build_some _ _ _

/-- C2 witness: the handler returning `[NaN, Infinity, -Infinity]` yields an
error response on id 4 whose type is "ValueError" and whose message names
NaN. -/
theorem c2_nan_rejection_witness :
    dispatch_request envC2 cfgD msgC2 [] =
      .ok (.int 4, .list [.float .nan, .float .inf, .float .negInf], [])
    ∧ containsNanInf (.list [.float .nan, .float .inf, .float .negInf]) = true
    ∧ respErrType (writtenEnvelope envC2 cfgD [] "x") = some "ValueError"
    ∧ respErrMessage (writtenEnvelope envC2 cfgD [] "x") = some nanCodecMsg
    ∧ respId (writtenEnvelope envC2 cfgD [] "x") = some (.int 4) := by
  have hmain := c2_nan_rejection envC2 cfgD [] "x" msgC2 (.int 4)
    (.list [.float .nan, .float .inf, .float .negInf]) [] (by decide) rfl rfl rfl rfl
  exact ⟨rfl, rfl, hmain.2.1, hmain.2.2.1, hmain.2.2.2.2⟩

/-- C2 counterexample: in the NaN scenario the written response's
`error.type` is `"ValueError"`, not `"CodecError"` as the claim states —
`encode_response` deliberately rethrows the `CodecError` as a `ValueError`
(python_bridge.py lines 874-876), and `build_error_payload` records that
class's name. -/
theorem c2_counterexample :
    respErrType (writtenEnvelope envC2 cfgD [] "x") = some "ValueError"
    ∧ respErrMessage (writtenEnvelope envC2 cfgD [] "x") = some nanCodecMsg
    ∧ strContains nanCodecMsg "NaN" = true
    ∧ ("ValueError" : String) ≠ "CodecError" :=
  ⟨rfl, rfl, by decide, by decide⟩

/-- Digits produced by `Nat.digitChar` are never a newline. -/
theorem digitChar_ne_newline (d : Nat) : Nat.digitChar d ≠ '\n' := by
  by_cases h : d < 16
  · interval_cases d <;> decide
  · simp only [Nat.digitChar]
    repeat rw [if_neg (by omega)]
    decide

/-- Characters accumulated by `Nat.toDigitsCore` over a newline-free
accumulator are never a newline. -/
theorem toDigitsCore_ne_newline (b fuel n : Nat) (ds : List Char)
    (h : ∀ c ∈ ds, c ≠ '\n') : ∀ c ∈ Nat.toDigitsCore b fuel n ds, c ≠ '\n' := by
  induction fuel generalizing n ds with
  | zero => simpa [Nat.toDigitsCore] using h
  | succ f ih =>
      simp only [Nat.toDigitsCore]
      split
      · intro c hc
        rcases List.mem_cons.mp hc with h1 | h2
        · subst h1; exact digitChar_ne_newline _
        · exact h c h2
      · exact ih _ _ (by
          intro c hc
          rcases List.mem_cons.mp hc with h1 | h2
          · subst h1; exact digitChar_ne_newline _
          · exact h c h2)

/-- The decimal text of an integer contains no newline. -/
theorem int_toString_ne_newline (n : Int) : ∀ c ∈ (toString n).data, c ≠ '\n' := by
  cases n with
  | ofNat m =>
      intro c hc
      have hm : (toString (Int.ofNat m)).data = Nat.toDigits 10 m := by
        simp [toString, Int.repr, Nat.repr, List.asString, Nat.toDigits]
      rw [hm] at hc
      exact toDigitsCore_ne_newline 10 (m + 1) m [] (by simp) c hc
  | negSucc m =>
      intro c hc
      have hm : (toString (Int.negSucc m)).data = '-' :: Nat.toDigits 10 (m + 1) := by
        simp [toString, Int.repr, Nat.repr, List.asString, Nat.toDigits]
      rw [hm] at hc
      rcases List.mem_cons.mp hc with h1 | h2
      · subst h1; decide
      · exact toDigitsCore_ne_newline 10 (m + 2) (m + 1) [] (by simp) c h2

/-- A finite float's rendering contains no newline. -/
theorem floatRepr_ne_newline (q : ℚ) : ∀ c ∈ floatRepr q, c ≠ '\n' := by
  intro c hc
  rw [floatRepr] at hc
  rcases List.mem_append.mp hc with h | h
  · exact int_toString_ne_newline _ c h
  · by_cases hden : q.den = 1
    · simp [hden] at h
    · simp only [hden, if_neg, if_false] at h
      rcases List.mem_cons.mp h with h1 | h2
      · subst h1; decide
      · exact int_toString_ne_newline _ c h2

/-- Hex digits of bounded index are never a newline. -/
theorem hexDigit_ne_newline (m : Nat) : hexDigit (m % 16) ≠ '\n' := by
  have hlt : m % 16 < 16 := Nat.mod_lt _ (by omega)
  generalize hk : m % 16 = k at hlt
  interval_cases k <;> decide

/-- No character of a `\uXXXX` escape is a newline. -/
theorem hex4_ne_newline (n : Nat) : ∀ c ∈ hex4 n, c ≠ '\n' := by
  intro c hc
  rw [hex4] at hc
  have h1 := hexDigit_ne_newline (n / 4096)
  have h2 := hexDigit_ne_newline (n / 256)
  have h3 := hexDigit_ne_newline (n / 16)
  have h4 := hexDigit_ne_newline n
  simp only [List.mem_cons, List.mem_singleton] at hc
  rcases hc with rfl | rfl | rfl | rfl | hfalse
  · exact h1
  · exact h2
  · exact h3
  · exact h4
  · simp at hfalse

/-- JSON character escaping never emits a raw newline. -/
theorem escChar_ne_newline (c : Char) : ∀ x ∈ escChar c, x ≠ '\n' := by
  intro x hx
  rw [escChar] at hx
  split_ifs at hx with h1 h2 h3 h4 h5 h6 h7 h8 h9
  · fin_cases hx <;> decide
  · fin_cases hx <;> decide
  · fin_cases hx <;> decide
  · fin_cases hx <;> decide
  · fin_cases hx <;> decide
  · fin_cases hx <;> decide
  · fin_cases hx <;> decide
  · rcases List.mem_cons.mp hx with rfl | hx2
    · decide
    · rcases List.mem_cons.mp hx2 with rfl | hx3
      · decide
      · exact hex4_ne_newline _ x hx3
  · rcases List.mem_cons.mp hx with rfl | hx2
    · decide
    · rcases List.mem_cons.mp hx2 with rfl | hx3
      · decide
      · rcases List.mem_append.mp hx3 with h | h
        · exact hex4_ne_newline _ x h
        · rcases List.mem_cons.mp h with rfl | hb2
          · decide
          · rcases List.mem_cons.mp hb2 with rfl | hb3
            · decide
            · exact hex4_ne_newline _ x hb3
  · rw [List.mem_singleton] at hx
    subst hx
    intro hc
    subst hc
    exact h8 (Or.inl (by decide))

/-- Membership in the folded escape of a string comes from one escape. -/
theorem mem_escFold (l : List Char) (x : Char)
    (hx : x ∈ l.foldr (fun c acc => escChar c ++ acc) []) :
    ∃ c ∈ l, x ∈ escChar c := by
  induction l with
  | nil => simp at hx
  | cons c t ih =>
      simp only [List.foldr_cons] at hx
      rcases List.mem_append.mp hx with h | h
      · exact ⟨c, List.mem_cons_self c t, h⟩
      · rcases ih h with ⟨c', hc', hxc'⟩
        exact ⟨c', List.mem_cons_of_mem c hc', hxc'⟩

/-- A JSON string literal contains no raw newline. -/
theorem quoteStr_ne_newline (s : String) : ∀ x ∈ quoteStr s, x ≠ '\n' := by
  intro x hx
  rw [quoteStr] at hx
  rcases List.mem_cons.mp hx with rfl | hx2
  · decide
  · rcases List.mem_append.mp hx2 with h | h
    · rcases mem_escFold _ _ h with ⟨c, _, hxc⟩
      exact escChar_ne_newline c x hxc
    · rw [List.mem_singleton] at h
      subst h
      decide

/-- A character of a comma-space join comes from an item or is the
separator. -/
theorem joinComma_mem (parts : List (List Char)) (x : Char)
    (hx : x ∈ joinComma parts) : (∃ p ∈ parts, x ∈ p) ∨ x = ',' ∨ x = ' ' :=
  match parts with
  | [] => by simp [joinComma] at hx
  | [p] => by
      rw [joinComma] at hx
      exact Or.inl ⟨p, List.mem_singleton.mpr rfl, hx⟩
  | p :: q :: rest => by
      rw [joinComma] at hx
      rcases List.mem_append.mp hx with h | h
      · exact Or.inl ⟨p, List.mem_cons_self _ _, h⟩
      · rcases List.mem_cons.mp h with rfl | h2
        · exact Or.inr (Or.inl rfl)
        · rcases List.mem_cons.mp h2 with rfl | h3
          · exact Or.inr (Or.inr rfl)
          · rcases joinComma_mem (q :: rest) x h3 with ⟨p', hp', hxp'⟩ | h4
            · exact Or.inl ⟨p', List.mem_cons_of_mem p hp', hxp'⟩
            · exact Or.inr h4

/-- Base64 alphabet characters are never a newline. -/
theorem b64EncChar_ne_newline (n : Nat) : b64EncChar n ≠ '\n' := by
  rw [b64EncChar]
  split_ifs with h1 h2 h3 h4
  · have h65 : 65 + n < 91 := by omega
    interval_cases n <;> decide
  · have : n - 26 < 26 := by omega
    generalize hk : n - 26 = k at this
    interval_cases k <;> decide
  · have : n - 52 < 10 := by omega
    generalize hk : n - 52 = k at this
    interval_cases k <;> decide
  · decide
  · decide

/-- Base64 encoding of bytes contains no newline. -/
theorem b64encodeChars_ne_newline (bs : List Nat) :
    ∀ x ∈ b64encodeChars bs, x ≠ '\n' :=
  match bs with
  | [] => by simp [b64encodeChars]
  | [a] => by
      intro x hx
      rw [b64encodeChars] at hx
      simp only [List.mem_cons, List.mem_singleton] at hx
      rcases hx with rfl | rfl | rfl | rfl | hfalse
      · exact b64EncChar_ne_newline _
      · exact b64EncChar_ne_newline _
      · decide
      · decide
      · simp at hfalse
  | [a, b] => by
      intro x hx
      rw [b64encodeChars] at hx
      simp only [List.mem_cons, List.mem_singleton] at hx
      rcases hx with rfl | rfl | rfl | rfl | hfalse
      · exact b64EncChar_ne_newline _
      · exact b64EncChar_ne_newline _
      · exact b64EncChar_ne_newline _
      · decide
      · simp at hfalse
  | a :: b :: c :: rest => by
      intro x hx
      rw [b64encodeChars] at hx
      rcases List.mem_cons.mp hx with rfl | hx2
      · exact b64EncChar_ne_newline _
      · rcases List.mem_cons.mp hx2 with rfl | hx3
        · exact b64EncChar_ne_newline _
        · rcases List.mem_cons.mp hx3 with rfl | hx4
          · exact b64EncChar_ne_newline _
          · rcases List.mem_cons.mp hx4 with rfl | hx5
            · exact b64EncChar_ne_newline _
            · exact b64encodeChars_ne_newline rest x hx5

/-- The rendered bytes envelope contains no newline. -/
theorem dumpBytesEnvelope_ne_newline (bs : List Nat) :
    ∀ x ∈ dumpBytesEnvelope bs, x ≠ '\n' := by
  intro x hx
  rw [dumpBytesEnvelope] at hx
  rcases List.mem_cons.mp hx with rfl | hx2
  · decide
  · rcases List.mem_append.mp hx2 with h | h
    · rcases joinComma_mem _ x h with ⟨p, hp, hxp⟩ | h4
      · simp only [List.mem_cons, List.mem_singleton] at hp
        rcases hp with rfl | rfl | rfl | hfalse
        · rcases List.mem_append.mp hxp with h5 | h5
          · exact quoteStr_ne_newline _ x h5
          · rcases List.mem_cons.mp h5 with rfl | h6
            · decide
            · rcases List.mem_cons.mp h6 with rfl | h7
              · decide
              · exact quoteStr_ne_newline _ x h7
        · rcases List.mem_append.mp hxp with h5 | h5
          · exact quoteStr_ne_newline _ x h5
          · rcases List.mem_cons.mp h5 with rfl | h6
            · decide
            · rcases List.mem_cons.mp h6 with rfl | h7
              · decide
              · exact quoteStr_ne_newline _ x h7
        · rcases List.mem_append.mp hxp with h5 | h5
          · rcases List.mem_append.mp h5 with h6 | h6
            · exact quoteStr_ne_newline _ x h6
            · rcases List.mem_cons.mp h6 with rfl | h7
              · decide
              · rcases List.mem_cons.mp h7 with rfl | h8
                · decide
                · rcases List.mem_cons.mp h8 with rfl | h9
                  · decide
                  · exact b64encodeChars_ne_newline _ x h9
          · rw [List.mem_singleton] at h5
            subst h5
            decide
        · simp at hfalse
      · rcases h4 with rfl | rfl <;> decide
    · rw [List.mem_singleton] at h
      subst h
      decide

mutual

/-- A successful serialization contains no raw newline, for any flags: the
response payload is a single line. -/
theorem jsonDumpsVal_ne_newline (a u : Bool) (v : PyVal) (cs : List Char)
    (h : jsonDumpsVal a u v = .ok cs) : ∀ x ∈ cs, x ≠ '\n' :=
  match v with
  | .none => by
      rw [jsonDumpsVal] at h
      cases h
      decide
  | .bool true => by
      rw [jsonDumpsVal] at h
      cases h
      decide
  | .bool false => by
      rw [jsonDumpsVal] at h
      cases h
      decide
  | .int n => by
      rw [jsonDumpsVal] at h
      cases h
      exact int_toString_ne_newline n
  | .float (.finite q) => by
      rw [jsonDumpsVal] at h
      cases h
      exact floatRepr_ne_newline q
  | .float .nan => by
      rw [jsonDumpsVal] at h
      cases a
      · exact absurd h (by simp)
      · cases h; decide
  | .float .inf => by
      rw [jsonDumpsVal] at h
      cases a
      · exact absurd h (by simp)
      · cases h; decide
  | .float .negInf => by
      rw [jsonDumpsVal] at h
      cases a
      · exact absurd h (by simp)
      · cases h; decide
  | .str s => by
      rw [jsonDumpsVal] at h
      cases h
      exact quoteStr_ne_newline s
  | .bytes bs => by
      rw [jsonDumpsVal] at h
      cases u
      · exact absurd h (by simp)
      · simp only [if_pos] at h
        cases h
        exact dumpBytesEnvelope_ne_newline bs
  | .list xs => by
      rw [jsonDumpsVal] at h
      cases he : jsonDumpsList a u xs with
      | error e => rw [he] at h; exact absurd h (by simp [bind, Except.bind])
      | ok parts =>
          rw [he] at h
          simp only [bind, Except.bind, pure, Except.pure] at h
          cases h
          intro x hx
          rcases List.mem_append.mp hx with h1 | h1
          · rcases List.mem_cons.mp h1 with rfl | h2
            · decide
            · rcases joinComma_mem parts x h2 with ⟨p, hp, hxp⟩ | h3
              · exact jsonDumpsList_ne_newline a u xs parts he p hp x hxp
              · rcases h3 with rfl | rfl <;> decide
          · rw [List.mem_singleton] at h1
            subst h1
            decide
  | .dict kvs => by
      rw [jsonDumpsVal] at h
      cases he : jsonDumpsKvs a u kvs with
      | error e => rw [he] at h; exact absurd h (by simp [bind, Except.bind])
      | ok parts =>
          rw [he] at h
          simp only [bind, Except.bind, pure, Except.pure] at h
          cases h
          intro x hx
          rcases List.mem_append.mp hx with h1 | h1
          · rcases List.mem_cons.mp h1 with rfl | h2
            · decide
            · rcases joinComma_mem parts x h2 with ⟨p, hp, hxp⟩ | h3
              · exact jsonDumpsKvs_ne_newline a u kvs parts he p hp x hxp
              · rcases h3 with rfl | rfl <;> decide
          · rw [List.mem_singleton] at h1
            subst h1
            decide

/-- List version of `jsonDumpsVal_ne_newline`. -/
theorem jsonDumpsList_ne_newline (a u : Bool) (xs : List PyVal)
    (parts : List (List Char)) (h : jsonDumpsList a u xs = .ok parts) :
    ∀ p ∈ parts, ∀ x ∈ p, x ≠ '\n' :=
  match xs with
  | [] => by
      rw [jsonDumpsList] at h
      cases h
      simp
  | x :: t => by
      rw [jsonDumpsList] at h
      cases hx : jsonDumpsVal a u x with
      | error e => rw [hx] at h; exact absurd h (by simp [bind, Except.bind])
      | ok r =>
          rw [hx] at h
          cases ht : jsonDumpsList a u t with
          | error e => rw [ht] at h; exact absurd h (by simp [bind, Except.bind])
          | ok rt =>
              rw [ht] at h
              simp only [bind, Except.bind, pure, Except.pure] at h
              cases h
              intro p hp
              rcases List.mem_cons.mp hp with rfl | h2
              · exact jsonDumpsVal_ne_newline a u x p hx
              · exact jsonDumpsList_ne_newline a u t rt ht p h2

/-- Items version of `jsonDumpsVal_ne_newline`. -/
theorem jsonDumpsKvs_ne_newline (a u : Bool) (kvs : List (String × PyVal))
    (parts : List (List Char)) (h : jsonDumpsKvs a u kvs = .ok parts) :
    ∀ p ∈ parts, ∀ x ∈ p, x ≠ '\n' :=
  match kvs with
  | [] => by
      rw [jsonDumpsKvs] at h
      cases h
      simp
  | (k, v) :: t => by
      rw [jsonDumpsKvs] at h
      cases hx : jsonDumpsVal a u v with
      | error e => rw [hx] at h; exact absurd h (by simp [bind, Except.bind])
      | ok r =>
          rw [hx] at h
          cases ht : jsonDumpsKvs a u t with
          | error e => rw [ht] at h; exact absurd h (by simp [bind, Except.bind])
          | ok rt =>
              rw [ht] at h
              simp only [bind, Except.bind, pure, Except.pure] at h
              cases h
              intro p hp
              rcases List.mem_cons.mp hp with rfl | h2
              · intro x hxm
                rcases List.mem_append.mp hxm with h3 | h3
                · exact quoteStr_ne_newline k x h3
                · rcases List.mem_cons.mp h3 with rfl | h4
                  · decide
                  · rcases List.mem_cons.mp h4 with rfl | h5
                    · decide
                    · exact jsonDumpsVal_ne_newline a u v r hx x h5
              · exact jsonDumpsKvs_ne_newline a u t rt ht p h2

end

/-- A validated request id satisfies `isinstance(_, int)`. -/
theorem require_protocol_int (msg mid : PyVal)
    (h : require_protocol msg = .ok mid) : isinstance_int mid = true := by
  cases msg
  case dict kvs =>
      rw [require_protocol] at h
      by_cases hp : isStrEq (dictGet kvs "protocol") PROTOCOL = true
      · simp only [hp, not_true, if_false] at h
        by_cases hi : isinstance_int (dictGet kvs "id") = true
        · simp only [hi, not_true, if_false] at h
          cases h
          exact hi
        · simp only [hi, not_false_iff, if_true] at h
          exact absurd h (by simp)
      · simp only [hp, not_false_iff, if_true] at h
        exact absurd h (by simp)
  all_goals (simp only [require_protocol] at h; exact absurd h (by simp))

/-- A successful dispatch answers on the validated request id, which
satisfies `isinstance(_, int)`. -/
theorem dispatch_request_mid (env : Env) (cfg : Config) (msg : PyVal)
    (st : Registry) (mid r : PyVal) (st' : Registry)
    (h : dispatch_request env cfg msg st = .ok (mid, r, st')) :
    isinstance_int mid = true := by
  rw [dispatch_request.eq_def] at h
  cases hrp : require_protocol msg with
  | error e => rw [hrp] at h; exact absurd h (by simp [bind, Except.bind])
  | ok m =>
      rw [hrp] at h
      simp only [bind, Except.bind] at h
      have hm : isinstance_int m = true := require_protocol_int msg m hrp
      suffices hmm : mid = m by rw [hmm]; exact hm
      repeat' split at h
      all_goals simp_all [pure, Except.pure, bind, Except.bind]

/-- The last known request id in `main`'s loop body is always `None`, an
int, or a bool — never any other value shape. -/
theorem buildOut_mid (env : Env) (cfg : Config) (st : Registry) (line : String) :
    (buildOut env cfg st line).2.1 = Option.none
    ∨ ∃ v, (buildOut env cfg st line).2.1 = some v ∧ isinstance_int v = true := by
  cases hsz : requestSizeCheck cfg line with
  | error e =>
      simp only [buildOut, hsz]
      exact Or.inl (by trivial)
  | ok u =>
      cases hld : env.jsonLoads line with
      | error m =>
          simp only [buildOut, hsz, hld]
          exact Or.inl (by trivial)
      | ok msg =>
          have hmid : extractMid msg = Option.none
              ∨ ∃ v, extractMid msg = some v ∧ isinstance_int v = true := by
            cases msg
            case dict kvs =>
                rw [extractMid]
                by_cases hi : isinstance_int (dictGet kvs "id") = true
                · exact Or.inr ⟨dictGet kvs "id", by simp [hi], hi⟩
                · simp only [Bool.not_eq_true] at hi
                  simp only [hi, Bool.false_eq_true, if_false]
                  exact Or.inl (by trivial)
            all_goals (exact Or.inl (by simp [extractMid]))
          cases hd : dispatch_request env cfg msg st with
          | ok triple =>
              obtain ⟨mid, r, st'⟩ := triple
              simp only [buildOut, hsz, hld, hd]
              exact Or.inr ⟨mid, rfl, dispatch_request_mid env cfg msg st mid r st' hd⟩
          | error e =>
              cases e <;> (simp only [buildOut, hsz, hld, hd]; simpa using hmid)

/-- A serialization failure makes `SafeCodec.encode` fail. -/
theorem SafeCodec_encode_err (a : Bool) (mx : Nat) (v : PyVal) (e : PyErr)
    (hd : jsonDumpsVal a true v = .error e) :
    ∃ e2, SafeCodec_encode a mx v = .error e2 := by
  simp only [SafeCodec_encode, hd]
  cases e
  all_goals repeat' split
  all_goals first
    | exact ⟨_, rfl⟩
    | simp_all

/-- A payload `SafeCodec.encode` accepts is the serializer's output. -/
theorem SafeCodec_encode_ok_shape (a : Bool) (mx : Nat) (v : PyVal) (p : String)
    (h : SafeCodec_encode a mx v = .ok p) :
    ∃ cs, jsonDumpsVal a true v = .ok cs ∧ p = String.mk cs := by
  cases hd : jsonDumpsVal a true v with
  | error e =>
      obtain ⟨e2, he2⟩ := SafeCodec_encode_err a mx v e hd
      rw [he2] at h
      exact absurd h (by simp)
  | ok cs =>
      simp only [SafeCodec_encode, hd] at h
      split at h
      · exact absurd h (by simp)
      · cases h
        exact ⟨cs, rfl, rfl⟩

/-- A response that `encode_response` accepts is the serializer's output. -/
theorem encode_response_ok (cfg : Config) (out : PyVal) (payload : String)
    (h : encode_response cfg out = .ok payload) :
    ∃ cs, jsonDumpsVal false true out = .ok cs ∧ payload = String.mk cs := by
  cases hs : SafeCodec_encode false pyMaxsize out with
  | error e =>
      simp only [encode_response, hs] at h
      cases e <;> exact absurd h (by simp)
  | ok p =>
      obtain ⟨cs, hcs, rfl⟩ := SafeCodec_encode_ok_shape false pyMaxsize out p hs
      simp only [encode_response, hs] at h
      cases hmx : cfg.codecMaxBytes with
      | none =>
          rw [hmx] at h
          cases h
          exact ⟨cs, hcs, rfl⟩
      | some mx =>
          rw [hmx] at h
          repeat' split at h
          all_goals cases h
          all_goals exact ⟨cs, hcs, rfl⟩

/-- The bare `json.dumps(err_out)` fallback of `main` always succeeds: the
error payload is made of strings, the protocol literal, and an id that is
`-1`, an int, or a bool. -/
theorem fallback_dumps_ok (mid : Option PyVal) (e : PyErr)
    (hmid : mid = Option.none ∨ ∃ v, mid = some v ∧ isinstance_int v = true) :
    ∃ p, jsonDumpsVal true false (build_error_payload mid e false) = .ok p := by
  rcases hmid with rfl | ⟨v, rfl, hv⟩
  · exact ⟨_, rfl⟩
  · cases v
    case int n => exact ⟨_, rfl⟩
    case bool b => cases b
                   · exact ⟨_, rfl⟩
                   · exact ⟨_, rfl⟩
    all_goals simp [isinstance_int] at hv

/-- C1. Strict serial framing of `main`: an empty (after stripping) input
line produces no output and leaves the state unchanged; every other line
produces exactly one response — a single payload with no interior newline,
terminated by exactly one newline — which is emitted before any later line
is processed, so response order matches request order. -/
theorem c1_serial_responses (env : Env) (cfg : Config) (st : Registry)
    (l : String) (ls : List String) :
    (pyStrip l = "" → processLine env cfg st l = (st, .skip)
       ∧ mainLoop env cfg st (l :: ls) = mainLoop env cfg st ls)
    ∧ (pyStrip l ≠ "" → ∃ p st',
         processLine env cfg st l = (st', .wrote (p ++ "\n"))
         ∧ (∀ x ∈ p.data, x ≠ '\n')
         ∧ mainLoop env cfg st (l :: ls) = (p ++ "\n") :: mainLoop env cfg st' ls) := by
  constructor
  · intro hb
    have hp : processLine env cfg st l = (st, .skip) := by
      simp [processLine, hb]
    exact ⟨hp, by rw [mainLoop, hp]⟩
  · intro hb
    rcases hbo : buildOut env cfg st (pyStrip l) with ⟨out, mid, st'⟩
    have hmid := buildOut_mid env cfg st (pyStrip l)
    rw [hbo] at hmid
    cases he : encode_response cfg out with
    | ok payload =>
        obtain ⟨cs, hcs, rfl⟩ := encode_response_ok cfg out payload he
        have hpl : processLine env cfg st l = (st', .wrote (String.mk cs ++ "\n")) := by
          simp [processLine, hb, hbo, he]
        refine ⟨String.mk cs, st', hpl, ?_, ?_⟩
        · intro x hx
          exact jsonDumpsVal_ne_newline false true out cs hcs x (by simpa using hx)
        · rw [mainLoop, hpl]
    | error e =>
        obtain ⟨p, hp⟩ := fallback_dumps_ok mid e (by simpa using hmid)
        have hpl : processLine env cfg st l = (st', .wrote (String.mk p ++ "\n")) := by
          simp [processLine, hb, hbo, he, hp]
        refine ⟨String.mk p, st', hpl, ?_, ?_⟩
        · intro x hx
          exact jsonDumpsVal_ne_newline true false _ p hp x (by simpa using hx)
        · rw [mainLoop, hpl]

/-- C1 witness: a concrete two-line session (a `meta` request and an empty
line) produces exactly one newline-terminated response for the non-empty
line and none for the empty one. -/
theorem c1_serial_responses_witness :
    pyStrip "x" ≠ ""
    ∧ (∃ p st', processLine (envConst (msgMetaBool true)) cfgD [] "x" =
         (st', LineOut.wrote (p ++ "\n"))
       ∧ (∀ x ∈ p.data, x ≠ '\n')
       ∧ mainLoop (envConst (msgMetaBool true)) cfgD [] ["x", "  "] =
           (p ++ "\n") :: mainLoop (envConst (msgMetaBool true)) cfgD st' ["  "])
    ∧ pyStrip "  " = ""
    ∧ mainLoop (envConst (msgMetaBool true)) cfgD [] ["  "] = [] := by
  refine ⟨by decide, ?_, by decide, ?_⟩
  · exact (c1_serial_responses (envConst (msgMetaBool true)) cfgD [] "x"
      ["  "]).2 (by decide)
  · have hskip := (c1_serial_responses (envConst (msgMetaBool true)) cfgD [] "  "
      ([] : List String)).1 (by decide)
    rw [hskip.2]
    rfl
